import Mathlib

/-!
Verification of the credential-parsing, validation and introspection engine
of the nfcookiebot repository (src/bot.py, src/bot2.py, src/bot7.py,
src/service.py) against its natural-language specification.

The Python sources are shallowly embedded: pure string manipulation is
translated to executable functions on `List Char` / `String`, Python `dict`s
become insertion-ordered association lists with update-in-place semantics,
`json.loads` becomes a fuel-based recursive-descent JSON reader, the regular
expressions used by the sources become dedicated deterministic scanners (each
of the regexes in question is backtracking-free, so a direct scan is exact),
and code that can raise returns `Except PyExn`.
All recursion is structural so that every definition evaluates inside the
kernel on concrete inputs.
-/

set_option maxRecDepth 8000

namespace NF

/-! ## Python-style character and string primitives -/

/-- ASCII whitespace as matched by Python's `\s`, `str.strip()` and
`str.split()` (the rare non-ASCII whitespace code points are not modelled;
none of the inputs exercised by the claims contains them). -/
def pyIsSpace (c : Char) : Bool :=
  c == ' ' || c == '\t' || c == '\n' || c == '\r' || c == '\x0b' || c == '\x0c'

/-- A character admissible inside the `[^\s;]+` capture of the direct
identifier scan of `parse_cookies` (src/bot7.py lines 62-63). -/
def isTokChar (c : Char) : Bool := !(pyIsSpace c) && c != ';'

/-- Boolean list-prefix test, the building block of all scanners. -/
def listIsPref : List Char → List Char → Bool
  | [], _ => true
  | _ :: _, [] => false
  | a :: as, b :: bs => a == b && listIsPref as bs

/-- Does `pat` occur in `cs` starting at index `i`. -/
def occursAt (pat cs : List Char) (i : Nat) : Bool := listIsPref pat (cs.drop i)

/-- Python's substring containment `pat in cs`. -/
def containsSub (pat : List Char) : List Char → Bool
  | [] => listIsPref pat []
  | c :: rest => listIsPref pat (c :: rest) || containsSub pat rest

/-- Python's `c in s` for a single character. -/
def containsChar (sep : Char) (cs : List Char) : Bool := cs.any (· == sep)

/-- Python `str.lstrip()` on the character list. -/
def pyStripL (cs : List Char) : List Char := cs.dropWhile pyIsSpace

/-- Python `str.strip()` on the character list. -/
def pyStripChars (cs : List Char) : List Char :=
  ((cs.dropWhile pyIsSpace).reverse.dropWhile pyIsSpace).reverse

/-- Python `str.lower()` (ASCII case folding, which is all the sources use). -/
def pyLower (s : String) : String := String.mk (s.data.map Char.toLower)

/-- Python `str.split(sep)` keeping empty segments, accumulator version. -/
def splitOnCharAux (sep : Char) : List Char → List Char → List (List Char)
  | acc, [] => [acc.reverse]
  | acc, c :: r =>
    if c == sep then acc.reverse :: splitOnCharAux sep [] r
    else splitOnCharAux sep (c :: acc) r

/-- Python `str.split(sep)` keeping empty segments. -/
def splitOnChar (sep : Char) (cs : List Char) : List (List Char) :=
  splitOnCharAux sep [] cs

/-- Python `str.split()` with no argument: split on whitespace runs,
discarding empty words. -/
def pySplitWsGo : Option (List Char) → List Char → List (List Char)
  | none, [] => []
  | some w, [] => [w.reverse]
  | none, c :: r =>
    if pyIsSpace c then pySplitWsGo none r else pySplitWsGo (some [c]) r
  | some w, c :: r =>
    if pyIsSpace c then w.reverse :: pySplitWsGo none r
    else pySplitWsGo (some (c :: w)) r

/-- Python `str.split()` with no argument. -/
def pySplitWs (cs : List Char) : List (List Char) := pySplitWsGo none cs

/-- Line-break characters recognised by Python `str.splitlines` that the
inputs can contain (`\x1c`-`\x1e`, `\x85` and the Unicode separators are not
modelled). -/
def isLineBreak (c : Char) : Bool :=
  c == '\n' || c == '\r' || c == '\x0b' || c == '\x0c'

/-- Python `str.splitlines()`: splits on the line breaks above, treats
`\r\n` as one break and produces no trailing empty line. -/
def pySplitLinesGo : List Char → List Char → List (List Char)
  | acc, [] => if acc.isEmpty then [] else [acc.reverse]
  | acc, '\r' :: '\n' :: r => acc.reverse :: pySplitLinesGo [] r
  | acc, c :: r =>
    if isLineBreak c then acc.reverse :: pySplitLinesGo [] r
    else pySplitLinesGo (c :: acc) r

/-- Python `str.splitlines()`. -/
def pySplitLines (cs : List Char) : List (List Char) := pySplitLinesGo [] cs

/-- Python `s.split(sep, 1)` once the presence of `sep` has been checked:
returns the text before the first `sep` and everything after it. -/
def splitOnceGo (sep : Char) : List Char → List Char → (List Char × List Char)
  | acc, [] => (acc.reverse, [])
  | acc, c :: r => if c == sep then (acc.reverse, r) else splitOnceGo sep (c :: acc) r

/-- Python `s.split(sep, 1)` projected to its two components. -/
def splitOnce (sep : Char) (cs : List Char) : (List Char × List Char) :=
  splitOnceGo sep [] cs

/-- Python `s.startswith(pre)`. -/
def pyStartsWith (s pre : String) : Bool := listIsPref pre.data s.data

/-- Python `s.rstrip('/')`. -/
def pyRstripSlash (s : String) : String :=
  String.mk ((s.data.reverse.dropWhile (· == '/')).reverse)

/-- Python `str.capitalize()`: first character upper-cased, the rest
lower-cased. -/
def pyCapitalize (s : String) : String :=
  match s.data with
  | [] => ""
  | c :: r => String.mk (c.toUpper :: r.map Char.toLower)

/-- Helper for `pyTitle`: the Boolean records whether the previous character
was alphabetic. -/
def pyTitleGo : Bool → List Char → List Char
  | _, [] => []
  | prevAlpha, c :: r =>
    (if c.isAlpha then (if prevAlpha then c.toLower else c.toUpper) else c) ::
      pyTitleGo c.isAlpha r

/-- Python `str.title()`. -/
def pyTitle (s : String) : String := String.mk (pyTitleGo false s.data)

/-- Python `str.replace(a, b)` for single characters. -/
def pyReplaceChar (a b : Char) (s : String) : String :=
  String.mk (s.data.map fun c => if c == a then b else c)

/-- Hexadecimal digit test used by the JSON `\u` escape. -/
def isHexC (c : Char) : Bool :=
  ('0' ≤ c && c ≤ '9') || ('a' ≤ c && c ≤ 'f') || ('A' ≤ c && c ≤ 'F')

/-- Value of a hexadecimal digit. -/
def hexVal (c : Char) : Nat :=
  if '0' ≤ c && c ≤ '9' then c.toNat - 48
  else if 'a' ≤ c && c ≤ 'f' then c.toNat - 87
  else if 'A' ≤ c && c ≤ 'F' then c.toNat - 55
  else 0

/-- Lower-case hexadecimal digit of a value below 16. -/
def hexDigitC (n : Nat) : Char :=
  if n < 10 then Char.ofNat (48 + n) else Char.ofNat (87 + n)

/-- Value of a decimal digit string, as computed by Python `int(...)` on the
all-digit captures of the sources. -/
def natOfDigits (cs : List Char) : Nat :=
  cs.foldl (fun acc c => 10 * acc + (c.toNat - 48)) 0

/-- Python `codecs.decode(-, "unicode_escape")` restricted to the escape
forms the sources can meet (`\\`, quotes, the one-letter C escapes, `\xNN`
and `\uXXXX`); an unknown escape is kept verbatim, as Python does. Malformed
`\x`/`\u` escapes, which make Python raise, are also kept verbatim - none of
the claims depends on that corner. -/
def pyUnicodeEscape : List Char → List Char
  | [] => []
  | '\\' :: 'x' :: h1 :: h2 :: r =>
    if isHexC h1 && isHexC h2 then
      Char.ofNat (hexVal h1 * 16 + hexVal h2) :: pyUnicodeEscape r
    else '\\' :: 'x' :: pyUnicodeEscape (h1 :: h2 :: r)
  | '\\' :: 'u' :: h1 :: h2 :: h3 :: h4 :: r =>
    if isHexC h1 && isHexC h2 && isHexC h3 && isHexC h4 then
      Char.ofNat (((hexVal h1 * 16 + hexVal h2) * 16 + hexVal h3) * 16 + hexVal h4) ::
        pyUnicodeEscape r
    else '\\' :: 'u' :: pyUnicodeEscape (h1 :: h2 :: h3 :: h4 :: r)
  | '\\' :: 'n' :: r => '\n' :: pyUnicodeEscape r
  | '\\' :: 't' :: r => '\t' :: pyUnicodeEscape r
  | '\\' :: 'r' :: r => '\r' :: pyUnicodeEscape r
  | '\\' :: 'b' :: r => '\x08' :: pyUnicodeEscape r
  | '\\' :: 'f' :: r => '\x0c' :: pyUnicodeEscape r
  | '\\' :: 'v' :: r => '\x0b' :: pyUnicodeEscape r
  | '\\' :: 'a' :: r => '\x07' :: pyUnicodeEscape r
  | '\\' :: '0' :: r => '\x00' :: pyUnicodeEscape r
  | '\\' :: '\\' :: r => '\\' :: pyUnicodeEscape r
  | '\\' :: '\'' :: r => '\'' :: pyUnicodeEscape r
  | '\\' :: '"' :: r => '"' :: pyUnicodeEscape r
  | c :: r => c :: pyUnicodeEscape r

/-! ## Python dictionaries as insertion-ordered association lists -/

/-- A Python dict from cookie name to value: an insertion-ordered
association list whose keys are unique by construction of `dictInsert`. -/
abbrev CookieMap := List (String × String)

/-- Python dict lookup (first entry wins; `dictInsert` keeps keys unique). -/
def dictLookup (k : String) : CookieMap → Option String
  | [] => none
  | (k', v) :: r => if k' = k then some v else dictLookup k r

/-- Python `k in d`. -/
def hasKey (k : String) (m : CookieMap) : Bool := (dictLookup k m).isSome

/-- Python `d[k] = v`: update in place when the key exists, else append. -/
def dictInsert (m : CookieMap) (k v : String) : CookieMap :=
  match m with
  | [] => [(k, v)]
  | (k', v') :: r => if k' = k then (k', v) :: r else (k', v') :: dictInsert r k v

/-! ## Exceptions -/

/-- The Python exceptions the embedded code can raise. -/
inductive PyExn where
  | jsonDecodeError
  | typeError
  | keyError
  | indexError
  | playwrightTimeout
  | otherError
deriving DecidableEq, Repr

/-! ## JSON values and the embedding of json.loads -/

/-- A parsed JSON value. Numbers keep their raw lexeme: no claim inspects a
numeric value produced by `json.loads`. -/
inductive JVal where
  | jnull
  | jbool (b : Bool)
  | jnum (raw : String)
  | jstr (s : String)
  | jarr (elems : List JVal)
  | jobj (members : List (String × JVal))

/-- JSON insignificant whitespace. -/
def isJWs (c : Char) : Bool := c == ' ' || c == '\t' || c == '\n' || c == '\r'

/-- Drop JSON whitespace. -/
def dropJWs (cs : List Char) : List Char := cs.dropWhile isJWs

/-- The value of a single-letter JSON string escape. -/
def escMap : Char → Option Char
  | '"' => some '"'
  | '\\' => some '\\'
  | '/' => some '/'
  | 'b' => some '\x08'
  | 'f' => some '\x0c'
  | 'n' => some '\n'
  | 'r' => some '\r'
  | 't' => some '\t'
  | _ => none

/-- Parse the body of a JSON string after its opening quote, returning the
decoded characters and the input after the closing quote. Strict mode as in
Python: a raw control character or an unknown escape is an error. A `\u`
escape denoting a surrogate half maps through `Char.ofNat` to `\x00`
(Python's pairing of surrogates is not modelled; no claim exercises it). -/
def parseJStrBody : List Char → Option (List Char × List Char)
  | [] => none
  | '"' :: rest => some ([], rest)
  | '\\' :: 'u' :: h1 :: h2 :: h3 :: h4 :: rest =>
    if isHexC h1 && isHexC h2 && isHexC h3 && isHexC h4 then
      (parseJStrBody rest).map fun (s, r) =>
        (Char.ofNat (((hexVal h1 * 16 + hexVal h2) * 16 + hexVal h3) * 16 + hexVal h4) :: s, r)
    else none
  | '\\' :: e :: rest =>
    match escMap e with
    | some c => (parseJStrBody rest).map fun (s, r) => (c :: s, r)
    | none => none
  | c :: rest =>
    if c.toNat < 32 then none
    else (parseJStrBody rest).map fun (s, r) => (c :: s, r)

/-- Characters that may occur in a JSON number lexeme. -/
def isNumChar (c : Char) : Bool :=
  c.isDigit || c == '-' || c == '+' || c == '.' || c == 'e' || c == 'E'

/-- Lex a JSON number as a raw token. Python's finer number grammar (for
example the rejection of `1.2.3`) is not modelled; no claim depends on which
malformed numbers `json.loads` rejects. -/
def parseJNum (cs : List Char) : Option (JVal × List Char) :=
  let tok := cs.takeWhile isNumChar
  if tok.isEmpty then none
  else some (.jnum (String.mk tok), cs.drop tok.length)

mutual

/-- Fuel-based recursive-descent JSON value reader. The fuel only bounds the
recursion; `jsonLoads` supplies enough for any input. -/
def parseJVal : Nat → List Char → Option (JVal × List Char)
  | 0, _ => none
  | fuel + 1, cs =>
    match dropJWs cs with
    | '"' :: rest => (parseJStrBody rest).map fun (s, r) => (.jstr (String.mk s), r)
    | '[' :: rest =>
      match dropJWs rest with
      | ']' :: r2 => some (.jarr [], r2)
      | r1 => (parseJElems fuel r1).map fun (l, r) => (.jarr l, r)
    | '{' :: rest =>
      match dropJWs rest with
      | '}' :: r2 => some (.jobj [], r2)
      | r1 => (parseJMembers fuel r1).map fun (l, r) => (.jobj l, r)
    | 't' :: 'r' :: 'u' :: 'e' :: rest => some (.jbool true, rest)
    | 'f' :: 'a' :: 'l' :: 's' :: 'e' :: rest => some (.jbool false, rest)
    | 'n' :: 'u' :: 'l' :: 'l' :: rest => some (.jnull, rest)
    | cs' => parseJNum cs'

/-- Elements of a non-empty JSON array, up to and including the closing
bracket. -/
def parseJElems : Nat → List Char → Option (List JVal × List Char)
  | 0, _ => none
  | fuel + 1, cs => do
    let (v, rest) ← parseJVal fuel cs
    match dropJWs rest with
    | ',' :: r2 =>
      let (vs, r3) ← parseJElems fuel r2
      pure (v :: vs, r3)
    | ']' :: r2 => pure ([v], r2)
    | _ => none

/-- Members of a non-empty JSON object, up to and including the closing
brace. -/
def parseJMembers : Nat → List Char → Option (List (String × JVal) × List Char)
  | 0, _ => none
  | fuel + 1, cs =>
    match dropJWs cs with
    | '"' :: rest => do
      let (k, r1) ← parseJStrBody rest
      match dropJWs r1 with
      | ':' :: r2 => do
        let (v, r3) ← parseJVal fuel r2
        match dropJWs r3 with
        | ',' :: r4 =>
          let (ms, r5) ← parseJMembers fuel r4
          pure ((String.mk k, v) :: ms, r5)
        | '}' :: r4 => pure ([(String.mk k, v)], r4)
        | _ => none
      | _ => none
    | _ => none

end

/-- The embedding of `json.loads`: parse one complete value, allowing only
trailing whitespace. The parser consumes at least one character every two
recursive calls, so the supplied fuel suffices for every input. -/
def jsonLoads (s : String) : Option JVal :=
  match parseJVal (2 * s.data.length + 4) s.data with
  | some (v, rest) => if (dropJWs rest).isEmpty then some v else none
  | none => none

/-- The embedding of `json.loads` with its failure surfaced as the Python
`json.JSONDecodeError`. -/
def jsonLoadsE (s : String) : Except PyExn JVal :=
  match jsonLoads s with
  | some v => .ok v
  | none => .error .jsonDecodeError

/-- Membership `k in d` on a parsed JSON object (`json.loads` builds a dict,
where a duplicated key keeps its last value). -/
def jobjHas (k : String) (ms : List (String × JVal)) : Bool :=
  ms.any fun kv => kv.1 == k

/-- Lookup `d[k]` on a parsed JSON object; the last duplicate wins, as in the
dict `json.loads` builds. -/
def jobjGet (k : String) (ms : List (String × JVal)) : Option JVal :=
  ms.foldl (fun acc kv => if kv.1 == k then some kv.2 else acc) none

/-- Rendering of a parsed JSON value stored as a cookie name or value.
Non-string scalars keep a Python-style rendering (conflating, e.g., the
number key `1` with the string key `"1"` - no claim distinguishes them). A
container never reaches this rendering in name position: lists and dicts are
unhashable, and the comprehensions raise `TypeError` before rendering (see
`jvalUnhashable`). A container in value position is kept as an opaque empty
rendering - Python stores the object itself there, hashable or not, and no
claim inspects such a value. -/
def asPyStr : JVal → String
  | .jstr s => s
  | .jnum r => r
  | .jbool true => "True"
  | .jbool false => "False"
  | .jnull => "None"
  | .jarr _ => ""
  | .jobj _ => ""

/-- Whether a parsed JSON value is unhashable in Python: lists and dicts are,
every scalar is hashable. Using an unhashable value as a dict key - as the
comprehensions of src/bot7.py line 75 and src/service.py line 53 do with
`c['name']` - raises `TypeError` at the insertion. -/
def jvalUnhashable : JVal → Bool
  | .jarr _ => true
  | .jobj _ => true
  | _ => false

/-! ## Regex scanners

Each regular expression used by the sources is deterministic at a given start
position (greedy classes followed by a character excluded from the class, or
lazy classes followed by their terminator), so `re.search` is embedded as a
left-to-right scan trying an exact matcher at every position, and
`re.finditer` as the same scan that resumes after each match. -/

/-- The literal `NetflixId=` of the direct identifier scan. -/
def netflixLit : List Char := ("NetflixId=").data

/-- The literal `SecureNetflixId=` of the direct identifier scan. -/
def secureLit : List Char := ("SecureNetflixId=").data

/-- The embedding of `re.search(LIT + r'([^\s;]+)', text)` (src/bot7.py lines
62-63): find the first position where the literal occurs followed by at least
one token character, and capture the maximal token run. -/
def scanAssignAux (pat : List Char) : List Char → Option (List Char)
  | [] => none
  | c :: rest =>
    if listIsPref pat (c :: rest) then
      match ((c :: rest).drop pat.length).takeWhile isTokChar with
      | [] => scanAssignAux pat rest
      | t => some t
    else scanAssignAux pat rest

/-- Direct identifier scan over a character list. -/
def scanAssign (pat cs : List Char) : Option (List Char) := scanAssignAux pat cs

/-- A successful match at one position: the captured text and the total
length of the matched text (used by `finditer` to resume). -/
structure MatchCap where
  cap : List Char
  len : Nat

/-- Matcher for `LIT\s*:\s*"(C+)"` at the current position, where `C` is a
character class: the shape of the `authCode`, `guid`, `profileName` and
`membershipStatus` regexes. -/
def matchQuoted (lit : List Char) (good : Char → Bool) (cs : List Char) : Option MatchCap :=
  if listIsPref lit cs then
    let r1 := cs.drop lit.length
    let n1 := (r1.takeWhile pyIsSpace).length
    match r1.drop n1 with
    | ':' :: r2 =>
      let n2 := (r2.takeWhile pyIsSpace).length
      match r2.drop n2 with
      | '"' :: r3 =>
        let tok := r3.takeWhile good
        if tok.isEmpty then none
        else
          match r3.drop tok.length with
          | '"' :: _ => some ⟨tok, lit.length + n1 + 1 + n2 + 1 + tok.length + 1⟩
          | _ => none
      | _ => none
    | _ => none
  else none

/-- Matcher for `LIT\s*:\s*(\d+)` at the current position: the shape of the
`"date"` regex of the profile observer. -/
def matchNumField (lit : List Char) (cs : List Char) : Option MatchCap :=
  if listIsPref lit cs then
    let r1 := cs.drop lit.length
    let n1 := (r1.takeWhile pyIsSpace).length
    match r1.drop n1 with
    | ':' :: r2 =>
      let n2 := (r2.takeWhile pyIsSpace).length
      let r3 := r2.drop n2
      let tok := r3.takeWhile Char.isDigit
      if tok.isEmpty then none
      else some ⟨tok, lit.length + n1 + 1 + n2 + tok.length⟩
    | _ => none
  else none

/-- Matcher for `LIT\s*:\s*(true|false)` at the current position: the shape
of the `isUserOnHold` regex. -/
def matchBoolField (lit : List Char) (cs : List Char) : Option MatchCap :=
  if listIsPref lit cs then
    let r1 := cs.drop lit.length
    let n1 := (r1.takeWhile pyIsSpace).length
    match r1.drop n1 with
    | ':' :: r2 =>
      let n2 := (r2.takeWhile pyIsSpace).length
      let r3 := r2.drop n2
      if listIsPref ("true").data r3 then some ⟨("true").data, lit.length + n1 + 1 + n2 + 4⟩
      else if listIsPref ("false").data r3 then some ⟨("false").data, lit.length + n1 + 1 + n2 + 5⟩
      else none
    | _ => none
  else none

/-- Matcher for `LIT\s*:\s*"(.*?)"` at the current position (the
`emailAddress` regex): the lazy capture is everything before the first
closing quote, may be empty, and `.` does not cross a newline. -/
def matchLazyQuoted (lit : List Char) (cs : List Char) : Option MatchCap :=
  if listIsPref lit cs then
    let r1 := cs.drop lit.length
    let n1 := (r1.takeWhile pyIsSpace).length
    match r1.drop n1 with
    | ':' :: r2 =>
      let n2 := (r2.takeWhile pyIsSpace).length
      match r2.drop n2 with
      | '"' :: r3 =>
        let tok := r3.takeWhile fun c => c != '"' && c != '\n'
        match r3.drop tok.length with
        | '"' :: _ => some ⟨tok, lit.length + n1 + 1 + n2 + 1 + tok.length + 1⟩
        | _ => none
      | _ => none
    | _ => none
  else none

/-- Matcher for the group-less bot7 pattern
`"countryOfSignup"\s*:\s*"[A-Z]{2}"` (src/bot7.py line 444). The match
carries no capture groups, which is exactly the slip the code then trips
over. -/
def matchCountry7 (cs : List Char) : Option MatchCap :=
  if listIsPref ("\"countryOfSignup\"").data cs then
    let r1 := cs.drop 17
    let n1 := (r1.takeWhile pyIsSpace).length
    match r1.drop n1 with
    | ':' :: r2 =>
      let n2 := (r2.takeWhile pyIsSpace).length
      match r2.drop n2 with
      | '"' :: a :: b :: '"' :: _ =>
        if ('A' ≤ a && a ≤ 'Z') && ('A' ≤ b && b ≤ 'Z') then
          some ⟨[], 17 + n1 + 1 + n2 + 4⟩
        else none
      | _ => none
    | _ => none
  else none

/-- Matcher for the corrected bot2 pattern
`"countryOfSignup"\s*:\s*"([A-Z]{2})"` (src/bot2.py line 295), which does
capture the country code. -/
def matchCountry2 (cs : List Char) : Option MatchCap :=
  match matchCountry7 cs with
  | none => none
  | some m =>
    match (cs.drop (m.len - 3)).take 2 with
    | [a, b] => some ⟨[a, b], m.len⟩
    | _ => none

/-- The embedding of `re.search`: try the matcher at every position, left to
right, and return the first capture. -/
def searchCap (f : List Char → Option MatchCap) : List Char → Option (List Char)
  | [] => (f []).map MatchCap.cap
  | c :: rest =>
    match f (c :: rest) with
    | some m => some m.cap
    | none => searchCap f rest

/-- The embedding of `re.finditer`, fuelled so that the kernel can evaluate
it: collect non-overlapping matches left to right, resuming after the end of
each match. -/
def allCapsGo (f : List Char → Option MatchCap) : Nat → List Char → List (List Char)
  | 0, _ => []
  | _ + 1, [] => []
  | fuel + 1, c :: rest =>
    match f (c :: rest) with
    | some m => m.cap :: allCapsGo f fuel ((c :: rest).drop (max m.len 1))
    | none => allCapsGo f fuel rest

/-- All captures of the matcher over the text (`re.finditer`). The fuel
`length + 1` always suffices because each step discards at least one
character. -/
def allCaps (f : List Char → Option MatchCap) (cs : List Char) : List (List Char) :=
  allCapsGo f (cs.length + 1) cs

/-! ## The cookie parser of src/bot7.py -/

/-- Strategy 3 body (src/bot7.py lines 85-90): split on `|`, strip each
segment, and record each `name=value` segment with name and value stripped
again. -/
def pipeParse (cs : List Char) : CookieMap :=
  (splitOnChar '|' cs).foldl
    (fun acc part =>
      let p := pyStripChars part
      if containsChar '=' p then
        let (n, v) := splitOnce '=' p
        dictInsert acc (String.mk (pyStripChars n)) (String.mk (pyStripChars v))
      else acc)
    []

/-- One line of strategy 4 of src/bot7.py (lines 96-108): strip, skip empty
lines and comments other than `#HttpOnly_`-prefixed ones, strip that marker,
split on tabs and, when that yields fewer than seven fields, on whitespace;
field 6 is the name and field 7 the value. -/
def netscapeLine7 (acc : CookieMap) (line : List Char) : CookieMap :=
  let l := pyStripChars line
  if l.isEmpty then acc
  else if listIsPref ['#'] l && !listIsPref ("#HttpOnly_").data l then acc
  else
    let l2 := if listIsPref ("#HttpOnly_").data l then l.drop 10 else l
    let parts := splitOnChar '\t' l2
    let parts := if parts.length < 7 then pySplitWs l2 else parts
    if 7 ≤ parts.length then
      dictInsert acc (String.mk (parts.getD 5 [])) (String.mk (parts.getD 6 []))
    else acc

/-- Strategy 4 of src/bot7.py: the Netscape-style reading of every line. -/
def netscape7 (cs : List Char) : CookieMap :=
  (pySplitLines cs).foldl netscapeLine7 []

/-- Strategy 5 of src/bot7.py (lines 113-119): split on `;`, strip each
segment, record each `name=value` segment (name and value not stripped
further). -/
def semiParse7 (cs : List Char) : CookieMap :=
  (splitOnChar ';' cs).foldl
    (fun acc pair =>
      let p := pyStripChars pair
      if containsChar '=' p then
        let (n, v) := splitOnce '=' p
        dictInsert acc (String.mk n) (String.mk v)
      else acc)
    []

/-- The guard of strategy 2 (src/bot7.py line 71): the declared type is
`json` or the text starts, after left-stripping, with `[`. -/
def strat2gate (content ftype : String) : Bool :=
  pyLower ftype == "json" || listIsPref ['['] (pyStripL content.data)

/-- One element step of the dict comprehension of strategy 2 (src/bot7.py
lines 75-79): once the comprehension has raised, the exception stands; an
object element carrying both `name` and `value` inserts its pair - unless
its `name` is an unhashable list or dict, where CPython raises `TypeError`
at the key insertion; every other element is filtered out by the
`isinstance(c, dict)` guard and the two membership tests. -/
def jsonStep7 (acc : Except PyExn CookieMap) (c : JVal) : Except PyExn CookieMap :=
  match acc, c with
  | .error e, _ => .error e
  | .ok m, .jobj ms =>
    if jobjHas "name" ms && jobjHas "value" ms then
      let n := (jobjGet "name" ms).getD .jnull
      if jvalUnhashable n then .error .typeError
      else .ok (dictInsert m (asPyStr n) (asPyStr ((jobjGet "value" ms).getD .jnull)))
    else .ok m
  | .ok m, _ => .ok m

/-- The dict comprehension of strategy 2 (src/bot7.py lines 75-79): collect
`name`/`value` from every element that is an object carrying both keys, in
order, or raise `TypeError` at the first element whose `name` is an
unhashable container - aborting the whole comprehension. -/
def buildJsonDict7 (l : List JVal) : Except PyExn CookieMap :=
  l.foldl jsonStep7 (.ok [])

/-- The parse_cookies function of src/bot7.py (lines 52-119), translated
clause for clause with its exception flow: the direct identifier scan; the
gated JSON-array reading, whose `except` clause (line 80) names
`json.JSONDecodeError` alone, so a decode failure falls through but the
`TypeError` the comprehension raises on an unhashable `name` escapes the
function, and whose successful list parse returns even an empty map; the
pipe reading accepted only with both required identifiers; the Netscape
reading accepted when non-empty; and the semicolon reading as last resort. -/
def parse_cookies7E (content ftype : String) : Except PyExn CookieMap :=
  match scanAssign netflixLit content.data, scanAssign secureLit content.data with
  | some nv, some sv =>
    .ok [("NetflixId", String.mk nv), ("SecureNetflixId", String.mk sv)]
  | _, _ =>
    let step2 : Except PyExn (Option CookieMap) :=
      if strat2gate content ftype then
        match jsonLoadsE content with
        | .ok v =>
          match v with
          | .jarr l =>
            match buildJsonDict7 l with
            | .ok m => .ok (some m)
            | .error e => .error e
          | _ => .ok none
        | .error .jsonDecodeError => .ok none
        | .error e => .error e
      else .ok none
    match step2 with
    | .error e => .error e
    | .ok (some m) => .ok m
    | .ok none =>
      let step3 : Option CookieMap :=
        if containsChar '|' content.data && containsSub ("NetflixId").data content.data
            && containsSub ("SecureNetflixId").data content.data then
          let c := pipeParse content.data
          if hasKey "NetflixId" c && hasKey "SecureNetflixId" c then some c else none
        else none
      match step3 with
      | some m => .ok m
      | none =>
        let c4 := netscape7 content.data
        .ok (if !c4.isEmpty then c4 else semiParse7 content.data)

/-- The exception-free reading of src/bot7.py's parse_cookies: the map the
function returns whenever it returns at all. On an input where the JSON
strategy raises (claim C5), Python produces no map at all; this reading
conventionally yields the empty map there, and every statement below using
it either excludes those inputs by hypothesis or never reaches them. -/
def parse_cookies7 (content ftype : String) : CookieMap :=
  match parse_cookies7E content ftype with
  | .ok m => m
  | .error _ => []

/-! ## The cookie parser of src/service.py -/

/-- Python membership `k in c` where `c` is an arbitrary parsed JSON value,
as evaluated inside the comprehension of src/service.py line 53: key test on
a dict, substring test on a string, element equality on a list, and a
`TypeError` on the remaining non-iterable values. -/
def pyContains (key : String) : JVal → Except PyExn Bool
  | .jobj ms => .ok (jobjHas key ms)
  | .jstr s => .ok (containsSub key.data s.data)
  | .jarr l => .ok (l.any fun e => match e with | .jstr s => s == key | _ => false)
  | _ => .error .typeError

/-- Python subscript `c[key]` on an arbitrary parsed JSON value: dict lookup
(the key is known present when the comprehension reaches this point), and a
`TypeError` on strings, lists and other scalars. -/
def pySubscript (key : String) : JVal → Except PyExn JVal
  | .jobj ms =>
    match jobjGet key ms with
    | some v => .ok v
    | none => .error .keyError
  | _ => .error .typeError

/-- The comprehension of src/service.py line 53, which has no
`isinstance(c, dict)` guard and can therefore raise a `TypeError` on non-dict
elements that pass the two membership tests, and - like src/bot7.py's guarded
comprehension - raises `TypeError` at the key insertion when an element's
`name` is an unhashable list or dict. -/
def buildJsonDictS (l : List JVal) : Except PyExn CookieMap :=
  l.foldl
    (fun acc c => do
      let m ← acc
      let hn ← pyContains "name" c
      if hn then do
        let hv ← pyContains "value" c
        if hv then do
          let n ← pySubscript "name" c
          let v ← pySubscript "value" c
          if jvalUnhashable n then Except.error .typeError
          else pure (dictInsert m (asPyStr n) (asPyStr v))
        else pure m
      else pure m)
    (.ok [])

/-- The body of the try block of src/service.py lines 50-55: `json.loads`,
then the comprehension when the result is a list; `some` means the strategy
returned, `none` that it fell through without raising. -/
def tryJsonS (content : String) : Except PyExn (Option CookieMap) :=
  match jsonLoadsE content with
  | .error e => .error e
  | .ok (.jarr l) => (buildJsonDictS l).map some
  | .ok _ => .ok none

/-- One line of the Netscape reading of src/service.py lines 58-63: lines
starting with `#` or blank are skipped (the line itself is not stripped),
only tab-splitting is attempted, and there is no `#HttpOnly_` handling. -/
def netscapeLineS (acc : CookieMap) (line : List Char) : CookieMap :=
  if listIsPref ['#'] line || (pyStripChars line).isEmpty then acc
  else
    let parts := splitOnChar '\t' line
    if 7 ≤ parts.length then
      dictInsert acc (String.mk (parts.getD 5 [])) (String.mk (parts.getD 6 []))
    else acc

/-- The semicolon fallback of src/service.py lines 64-68: newlines replaced
by `;`, split on `;`, each `name=value` segment recorded with name and value
stripped. -/
def semiParseS (cs : List Char) : CookieMap :=
  (splitOnChar ';' (cs.map fun ch => if ch == '\n' then ';' else ch)).foldl
    (fun acc part =>
      if containsChar '=' part then
        let (n, v) := splitOnce '=' part
        dictInsert acc (String.mk (pyStripChars n)) (String.mk (pyStripChars v))
      else acc)
    []

/-- The parse_cookies function of src/service.py (lines 49-69): the JSON
strategy inside `try`, with every exception caught, then the Netscape
reading, then - only when that produced nothing - the semicolon fallback. -/
def parse_cookiesS (content : String) : CookieMap :=
  match tryJsonS content with
  | .ok (some m) => m
  | _ =>
    let c := (pySplitLines content.data).foldl netscapeLineS []
    if c.isEmpty then semiParseS content.data else c

/-- The parse_cookies function of src/service.py with its exception flow kept
visible: the `except Exception: pass` of line 54 catches whatever the try
block raised and falls through to the remaining strategies. -/
def parse_cookiesSE (content : String) : Except PyExn CookieMap :=
  let fallback : CookieMap :=
    let c := (pySplitLines content.data).foldl netscapeLineS []
    if c.isEmpty then semiParseS content.data else c
  match tryJsonS content with
  | .ok (some m) => .ok m
  | .ok none => .ok fallback
  | .error _ => .ok fallback

/-! ## Plain-HTTP session validators -/

/-- One completed HTTP exchange as the validators observe it: the final
status code, the final resolved URL after redirects, and the body. -/
structure HttpExchange where
  status : Nat
  finalUrl : String
  body : String

/-- The account URL checked by src/bot7.py line 417 and src/bot2.py line 265. -/
def accountUrl : String := "https://www.netflix.com/account"

/-- The browse URL checked by src/bot.py lines 19 and 66. -/
def browseUrl : String := "https://www.netflix.com/browse"

/-- The validation step of src/bot7.py lines 408-420: on a transport error
the result is invalid with an empty body; otherwise validity is the prefix
test of the final URL against the account URL, the status code unused. -/
def validate7 : Except PyExn HttpExchange → Bool × String
  | .error _ => (false, "")
  | .ok r => (pyStartsWith r.finalUrl accountUrl, r.body)

/-- The validation step of src/bot2.py lines 258-268, which decides exactly
as src/bot7.py does. -/
def validate2 : Except PyExn HttpExchange → Bool × String
  | .error _ => (false, "")
  | .ok r => (pyStartsWith r.finalUrl accountUrl, r.body)

/-- The validity decision of src/bot.py line 66: the cookie is reported
invalid when the status code differs from 200 or the final URL, with
trailing slashes stripped and lower-cased, differs from the browse URL. -/
def validateBrowse (r : HttpExchange) : Bool :=
  decide (r.status = 200) && (pyLower (pyRstripSlash r.finalUrl) == browseUrl)

/-- The cookie filter of src/bot7.py lines 387-390: only the two session
identifiers are kept for the outgoing request. -/
def session_cookies (m : CookieMap) : CookieMap :=
  m.filter fun kv => kv.1 == "NetflixId" || kv.1 == "SecureNetflixId"

/-- Outcome of running a validator on a parsed cookie map. -/
inductive ValidationOutcome where
  | missingIds
  | checked (valid : Bool) (html : String)
deriving DecidableEq

/-- The src/bot7.py validation flow from a parsed map (lines 386-420): filter
to the session cookies, report the missing-identifier outcome when none
remain, otherwise run the exchange with exactly the filtered cookies
outgoing. The network is abstracted as a function of the outgoing cookie
lookup. -/
def validateWithCookies7
    (net : (String → Option String) → Except PyExn HttpExchange)
    (m : CookieMap) : ValidationOutcome :=
  let sc := session_cookies m
  if sc.isEmpty then .missingIds
  else
    let (v, h) := validate7 (net fun k => dictLookup k sc)
    .checked v h

/-- The src/bot2.py validation flow from a parsed map (lines 255-268):
`session.cookies.update(cookies)` forwards every parsed cookie, with no
filtering and no missing-identifier check. -/
def validateWithCookies2
    (net : (String → Option String) → Except PyExn HttpExchange)
    (m : CookieMap) : ValidationOutcome :=
  let (v, h) := validate2 (net fun k => dictLookup k m)
  .checked v h

/-! ## Account-info field extraction (src/bot7.py lines 432-459 subset) -/

/-- The account fields modelled from the extraction sequence of
src/bot7.py: hold status (line 432), membership status (line 441), country
(line 444 - the buggy group-less pattern) and mail (line 455). The remaining
fields follow the same independent-search shape and are not needed by any
claim. -/
structure AccountInfo where
  hold : Option String
  membership : Option String
  country : Option String
  mail : Option String
deriving DecidableEq

/-- The extraction sequence of src/bot7.py in source order. Each field is an
independent search; the country step calls `co_m.group(1)` on a match of a
pattern that has no capture groups, which raises `IndexError` whenever the
pattern matched at all. -/
def extract_account7 (html : String) : Except PyExn AccountInfo := do
  let hold := (searchCap (matchBoolField ("\"isUserOnHold\"").data) html.data).map
    fun w => pyCapitalize (String.mk w)
  let membership := (searchCap (matchQuoted ("\"membershipStatus\"").data (· != '"')) html.data).map
    fun w => pyTitle (pyReplaceChar '_' ' ' (String.mk w))
  let country ← match searchCap matchCountry7 html.data with
    | none => pure (none : Option String)
    | some _ => Except.error PyExn.indexError
  let mail := (searchCap (matchLazyQuoted ("\"emailAddress\"").data) html.data).map
    fun w => String.mk (pyUnicodeEscape w)
  pure ⟨hold, membership, country, mail⟩

/-- The corrected country extraction of src/bot2.py line 295, whose pattern
does capture the two-letter code. -/
def extract_country2 (html : String) : Option String :=
  (searchCap matchCountry2 html.data).map String.mk

/-! ## Browser introspection (src/service.py lines 204-263) -/

/-- The state accumulated by the response observer `on_resp` of
src/service.py lines 220-229: the service code seen so far and the discovered
GUIDs. The Python `set` is modelled as an insertion-ordered duplicate-free
list. -/
structure ObsState where
  service_code : Option String
  guids : List String
deriving DecidableEq

/-- Insertion into the modelled GUID set. -/
def guidsInsert (gs : List String) (g : String) : List String :=
  if gs.contains g then gs else gs ++ [g]

/-- One call of the observer `on_resp` on a response whose body read either
failed (`none`: the bare `except: return` of line 224) or yielded a text:
every `authCode` match assigns the service code in turn, and every `guid`
match joins the set. -/
def on_resp (st : ObsState) (body : Option String) : ObsState :=
  match body with
  | none => st
  | some t =>
    let sc := (allCaps (matchQuoted ("\"authCode\"").data Char.isDigit) t.data).foldl
      (fun _ c => some (String.mk c)) st.service_code
    let gs := (allCaps (matchQuoted ("\"guid\"").data (· != '"')) t.data).foldl
      (fun acc g => guidsInsert acc (String.mk g)) st.guids
    { service_code := sc, guids := gs }

/-- The observer folded over every response of the primary page, from the
initial state. -/
def observeAll (texts : List (Option String)) : ObsState :=
  texts.foldl on_resp ⟨none, []⟩

/-- All `authCode` captures across the observed responses, in order. -/
def allAuthCaps (texts : List (Option String)) : List (List Char) :=
  ((texts.filterMap id).map
    (fun t => allCaps (matchQuoted ("\"authCode\"").data Char.isDigit) t.data)).flatten

/-- The first `authCode` capture ever observed (the reading the spec
asserts). -/
def firstAuthCode (texts : List (Option String)) : Option String :=
  (allAuthCaps texts).head?.map String.mk

/-- The last `authCode` capture ever observed (the reading the code
implements). -/
def lastAuthCode (texts : List (Option String)) : Option String :=
  (allAuthCaps texts).getLast?.map String.mk

/-- The rendering of the service code in the captions of src/service.py
lines 305 and 338: `sc[:3]-sc[3:]`. -/
def renderServiceCode (c : String) : String :=
  String.mk (c.data.take 3) ++ "-" ++ String.mk (c.data.drop 3)

/-! ## Profile sub-fetches (src/service.py lines 239-263) -/

/-- The network behaviour of one profile sub-fetch: either the page drive
raises (timeout of the `goto`, a crashed context, ...) or the page completes
and its observer saw the given response bodies. -/
inductive FetchOutcome where
  | crash (e : PyExn)
  | pages (texts : List (Option String))

/-- The response texts of an outcome (empty for a crash). -/
def pagesOf : FetchOutcome → List (Option String)
  | .crash _ => []
  | .pages ts => ts

/-- Whether the outcome is a crash. -/
def isCrash : FetchOutcome → Bool
  | .crash _ => true
  | .pages _ => false

/-- The profile display name the observer `ph` of lines 246-255 ends with:
every `profileName` match assigns `prof`, decoded through `unicode_escape`,
so the last match across all responses wins. -/
def profNameOf (texts : List (Option String)) : Option String :=
  (((texts.filterMap id).map
    (fun t => allCaps (matchQuoted ("\"profileName\"").data (· != '"')) t.data)).flatten.getLast?).map
    fun c => String.mk (pyUnicodeEscape c)

/-- The activity timestamps collected by the observer `ph`: every `date`
match appended in order. -/
def datesOf (texts : List (Option String)) : List Nat :=
  (((texts.filterMap id).map
    (fun t => allCaps (matchNumField ("\"date\"").data) t.data)).flatten).map natOfDigits

/-- One sub-fetch `fetch_profile(guid)` of src/service.py lines 240-261: a
crash of the page drive escapes as the exception; otherwise the result is the
observed display name with the GUID as fallback (`prof or guid`), plus the
collected dates. -/
def fetch_profile (net : String → FetchOutcome) (guid : String) :
    Except PyExn (String × List Nat) :=
  match net guid with
  | .crash e => .error e
  | .pages ts => .ok ((profNameOf ts).getD guid, datesOf ts)

/-- The semantics of `asyncio.gather(*...)` with its default
`return_exceptions=False`: the first exception in task order propagates and
no partial list is returned. -/
def gatherE : List (Except PyExn α) → Except PyExn (List α)
  | [] => .ok []
  | .error e :: _ => .error e
  | .ok a :: rest => (gatherE rest).map (a :: ·)

/-- The fan-out of src/service.py line 263:
`await asyncio.gather(*(fetch_profile(g) for g in guids))`. -/
def runProfileFetches (net : String → FetchOutcome) (guids : List String) :
    Except PyExn (List (String × List Nat)) :=
  gatherE (guids.map (fetch_profile net))

/-! ## Serialization to the JSON-array form (spec section 8, round-trip) -/

/-- JSON string escaping of one character, as a standard serializer (and
Python's `json.dumps`) emits it: quote and backslash escaped, the common
control characters by their one-letter escapes, the remaining control
characters as `\u00XX`, everything else verbatim. -/
def escC (c : Char) : List Char :=
  if c == '"' then ['\\', '"']
  else if c == '\\' then ['\\', '\\']
  else if c == '\n' then ['\\', 'n']
  else if c == '\t' then ['\\', 't']
  else if c == '\r' then ['\\', 'r']
  else if c == '\x08' then ['\\', 'b']
  else if c == '\x0c' then ['\\', 'f']
  else if c.toNat < 32 then
    ['\\', 'u', '0', '0', hexDigitC (c.toNat / 16), hexDigitC (c.toNat % 16)]
  else [c]

/-- JSON string escaping of a string body. -/
def escStr (s : String) : List Char := (s.data.map escC).flatten

/-- A JSON string literal. -/
def quoteStr (s : String) : List Char := '"' :: (escStr s ++ ['"'])

/-- Serialization of one cookie as the object `{"name": k, "value": v}`
(compact separators). -/
def serObj (k v : String) : List Char :=
  '{' :: (("\"name\":").data ++ quoteStr k ++ (",\"value\":").data ++ quoteStr v ++ ['}'])

/-- The parsed form the reader recovers from `serObj`. -/
def objOf (kv : String × String) : JVal :=
  .jobj [("name", .jstr kv.1), ("value", .jstr kv.2)]

/-- Serialization of the elements of the cookie array, comma-separated. -/
def serElems : CookieMap → List Char
  | [] => []
  | [(k, v)] => serObj k v
  | (k, v) :: rest => serObj k v ++ ',' :: serElems rest

/-- Serialization of a parsed cookie map to its JSON-array form, the
round-trip format of spec section 8. -/
def serializeCookies (m : CookieMap) : String :=
  String.mk ('[' :: (serElems m ++ [']']))

/-! ## Strategy-chain formulations of parse_cookies (claim C4) -/

/-- Strategy 1 as a chain member: the direct identifier scan, returning its
two-entry map exactly when both identifier regexes match. -/
def strat1 (content : String) : Option CookieMap :=
  match scanAssign netflixLit content.data, scanAssign secureLit content.data with
  | some nv, some sv =>
    some [("NetflixId", String.mk nv), ("SecureNetflixId", String.mk sv)]
  | _, _ => none

/-- Strategy 2 as the claim describes it, as a chain member: under its gate,
a successful JSON list parse returns the collected map - even an empty one -
and a comprehension that raises falls through, since under the claim a
strategy that throws falls through to the next. -/
def strat2Claim (content ftype : String) : Option CookieMap :=
  if strat2gate content ftype then
    match jsonLoads content with
    | some (.jarr l) =>
      match buildJsonDict7 l with
      | .ok m => some m
      | .error _ => none
    | _ => none
  else none

/-- Strategy 2 as the code implements it, as a chain member with its
exception flow: under its gate, a JSON decode failure falls through - that is
the one exception line 80 of src/bot7.py catches - a non-list parse falls
through, and a successful list parse either returns the collected map
terminally or propagates the comprehension's `TypeError`. -/
def strat2E (content ftype : String) : Except PyExn (Option CookieMap) :=
  if strat2gate content ftype then
    match jsonLoadsE content with
    | .ok v =>
      match v with
      | .jarr l =>
        match buildJsonDict7 l with
        | .ok m => .ok (some m)
        | .error e => .error e
      | _ => .ok none
    | .error .jsonDecodeError => .ok none
    | .error e => .error e
  else .ok none

/-- The gate of strategy 3 (src/bot7.py line 84). -/
def strat3gate (content : String) : Bool :=
  containsChar '|' content.data && containsSub ("NetflixId").data content.data
    && containsSub ("SecureNetflixId").data content.data

/-- Strategy 3 as the code implements it: the pipe map is returned only when
it carries both required identifiers. -/
def strat3 (content : String) : Option CookieMap :=
  if strat3gate content then
    let c := pipeParse content.data
    if hasKey "NetflixId" c && hasKey "SecureNetflixId" c then some c else none
  else none

/-- Strategy 3 as the claim describes it: any map the pipe reading yields
(the non-emptiness filter is the chain's). -/
def strat3Claim (content : String) : Option CookieMap :=
  if strat3gate content then some (pipeParse content.data) else none

/-- Strategy 4 as a chain member: the Netscape map when non-empty. -/
def strat4 (content : String) : Option CookieMap :=
  let c := netscape7 content.data
  if c.isEmpty then none else some c

/-- A chain of possibly-raising strategies with an explicit terminal-return
semantics: the first strategy that returns at all (possibly with an empty
map) wins, a strategy that raises aborts the whole chain with its exception,
and the final strategy's map is returned unconditionally. -/
def runChainE (strats : List (String → String → Except PyExn (Option CookieMap)))
    (last : String → String → CookieMap) (content ftype : String) :
    Except PyExn CookieMap :=
  match strats with
  | [] => .ok (last content ftype)
  | f :: fs =>
    match f content ftype with
    | .error e => .error e
    | .ok (some m) => .ok m
    | .ok none => runChainE fs last content ftype

/-- A chain of strategies with the first-non-empty semantics the claim
states: a strategy that fails or yields an empty map falls through, and the
first non-empty map wins. -/
def runNonEmptyChain (strats : List (String → String → Option CookieMap))
    (content ftype : String) : CookieMap :=
  match strats with
  | [] => []
  | f :: fs =>
    match f content ftype with
    | some m => if m.isEmpty then runNonEmptyChain fs content ftype else m
    | none => runNonEmptyChain fs content ftype

/-- The uniform strategy chain that src/bot7.py actually implements (the
amended claim C4): strategies 1-4 in order with their gates and sufficiency
conditions, semicolon pairs as last resort; strategy 2 returns terminally
whenever its JSON parse yields a list and its comprehension returns, and
aborts the whole parse when the comprehension raises. -/
def amendedChainE (content ftype : String) : Except PyExn CookieMap :=
  runChainE
    [fun c _ => .ok (strat1 c), strat2E, fun c _ => .ok (strat3 c),
      fun c _ => .ok (strat4 c)]
    (fun c _ => semiParse7 c.data) content ftype

/-- The strategy chain exactly as claim C4 words it: strategies 1-5 tried in
order, each falling through on an exception, a failure or an empty map, the
first non-empty map winning. -/
def claimChainC4 (content ftype : String) : CookieMap :=
  runNonEmptyChain
    [fun c _ => strat1 c, strat2Claim, fun c _ => strat3Claim c, fun c _ => strat4 c,
      fun c _ => some (semiParse7 c.data)] content ftype

/-! ## The standalone-assignment condition of claim C10 -/

/-- The token the `[^\s;]+` capture would take starting at index `i`. -/
def tokAt (cs : List Char) (i : Nat) : List Char :=
  (cs.drop i).takeWhile isTokChar

/-- Whether the text contains no standalone `NetflixId=` assignment: every
position where `NetflixId=` occurs with a non-empty token after it lies six
characters inside an occurrence of `SecureNetflixId=`. Stated over the
positions of the text, hence decidable by evaluation. -/
def noStandaloneNetflixAssign (cs : List Char) : Bool :=
  (List.range cs.length).all fun i =>
    !(occursAt netflixLit cs i && !(tokAt cs (i + netflixLit.length)).isEmpty) ||
      (decide (6 ≤ i) && occursAt secureLit cs (i - 6))

/-! ## Concrete instances used by the evaluation theorems -/

/-- A response body carrying a membership status and a country of signup. -/
def exBodyCountry : String :=
  "\"membershipStatus\": \"CURRENT_MEMBER\", \"countryOfSignup\": \"US\""

/-- A response body carrying only a membership status. -/
def exBodyNoCountry : String := "\"membershipStatus\": \"CURRENT_MEMBER\""

/-- A profile response body with a display name and one activity date. -/
def exProfPages : List (Option String) := [some "\"profileName\": \"P2\" \"date\": 5"]

/-- A profile network where the sub-fetch of `g1` raises and every other
sub-fetch completes. -/
def netOneCrash : String → FetchOutcome :=
  fun g => if g == "g1" then .crash .playwrightTimeout else .pages exProfPages

/-- A profile network where every sub-fetch completes. -/
def netAllOk : String → FetchOutcome := fun _ => .pages exProfPages

/-- A primary-page response stream carrying two `authCode` matches in one
body. -/
def twoCodesTexts : List (Option String) :=
  [some "\"authCode\": \"111111\" \"authCode\": \"222222\""]

/-- A primary-page response stream whose `authCode` carries seven digits. -/
def sevenDigitTexts : List (Option String) := [some "\"authCode\": \"1234567\""]

/-- A primary-page response stream whose `authCode` carries six digits. -/
def sixDigitTexts : List (Option String) := [some "\"authCode\": \"123456\""]

/-- Two parsed cookie maps agreeing on the session identifiers and differing
in a tracking cookie. -/
def mapA : CookieMap := [("NetflixId", "a"), ("SecureNetflixId", "b")]

/-- The second map of the pair: `mapA` plus a tracking cookie. -/
def mapB : CookieMap := [("NetflixId", "a"), ("SecureNetflixId", "b"), ("trk", "z")]

/-- A network behaviour that redirects to the login page exactly when the
tracking cookie is sent: it separates the outgoing cookie sets of `mapA` and
`mapB`. -/
def netTrk : (String → Option String) → Except PyExn HttpExchange :=
  fun f => .ok ⟨200, if f "trk" = some "z" then "https://www.netflix.com/login" else accountUrl, ""⟩

/-- Witness maps for the amended C8: same session identifiers in a different
order, one with an extra language cookie. -/
def mapW1 : CookieMap := [("SecureNetflixId", "s"), ("NetflixId", "n")]

/-- The second witness map. -/
def mapW2 : CookieMap := [("NetflixId", "n"), ("SecureNetflixId", "s"), ("lang", "en")]

/-- A network behaviour keyed on the session identifier only. -/
def netSess : (String → Option String) → Except PyExn HttpExchange :=
  fun f => .ok ⟨200, if f "NetflixId" = some "n" then accountUrl else browseUrl, ""⟩

/-- A cookie map whose value embeds a `SecureNetflixId=` assignment, the
round-trip breaker of claim C9. -/
def mapC9 : CookieMap := [("a", "SecureNetflixId=x")]

/-- A benign cookie map for the round-trip witness. -/
def mapC9W : CookieMap := [("NetflixId", "v1"), ("SecureNetflixId", "v2")]

/-! ## Theorems -/

/-- Claim C1 (code bug): the account-info extraction step of src/bot7.py is
not a total function of the body. On a body that carries a country of
signup, the group-less pattern of line 444 matches and `co_m.group(1)` on
line 447 raises `IndexError`, so the extraction aborts and every other field
is lost; on the same body the corrected pattern of src/bot2.py line 295
extracts the code, and without the country field the bot7 extraction
works. -/
theorem C1_extraction_raises_on_country :
    extract_account7 exBodyCountry = .error .indexError ∧
    extract_country2 exBodyCountry = some "US" ∧
    extract_account7 exBodyNoCountry = .ok ⟨none, some "Current Member", none, none⟩ :=
  ⟨rfl, rfl, rfl⟩

/-- Claim C2 (counterexample): profile sub-fetches are not failure-isolated.
With two discovered GUIDs of which the first sub-fetch raises, the
`asyncio.gather` of src/service.py line 263 propagates the exception and the
whole introspection aborts, even though the second sub-fetch on its own has a
perfectly good result that the claim says must still be reported. -/
theorem C2_counterexample :
    runProfileFetches netOneCrash ["g1", "g2"] = .error .playwrightTimeout ∧
    fetch_profile netOneCrash "g2" = .ok ("P2", [5]) ∧
    runProfileFetches netOneCrash ["g1", "g2"] ≠
      .ok [(("P2" : String), ([5] : List Nat))] :=
  ⟨rfl, rfl, fun h => nomatch h⟩

/-- Claim C3 (counterexample): not every plain-HTTP validation run decides
validity solely by the account-path prefix of the final URL. The validator of
src/bot.py line 66 reports invalid on a final URL that is exactly the account
URL, and flips its verdict on the same final URL when only the status code
changes. -/
theorem C3_counterexample :
    validateBrowse ⟨200, accountUrl, ""⟩ = false ∧
    pyStartsWith accountUrl accountUrl = true ∧
    validateBrowse ⟨200, browseUrl, ""⟩ = true ∧
    validateBrowse ⟨404, browseUrl, ""⟩ = false :=
  ⟨by decide, by decide, by decide, by decide⟩

/-- Claim C3 (amended): the validators of src/bot7.py and src/bot2.py decide
validity exactly by the account-path prefix of the final URL, independent of
the status code and the body; the src/bot.py validator instead requires
status 200 together with equality (after trailing-slash stripping and
lower-casing) with the browse URL. -/
theorem C3_final_url_amended (st st' : Nat) (u b b' : String) :
    (validate7 (.ok ⟨st, u, b⟩)).1 = pyStartsWith u accountUrl ∧
    (validate2 (.ok ⟨st, u, b⟩)).1 = pyStartsWith u accountUrl ∧
    (validate7 (.ok ⟨st, u, b⟩)).1 = (validate7 (.ok ⟨st', u, b'⟩)).1 ∧
    validateBrowse ⟨st, u, b⟩ =
      (decide (st = 200) && (pyLower (pyRstripSlash u) == browseUrl)) :=
  ⟨rfl, rfl, rfl, rfl⟩

/-- Claim C4 (counterexample): the described chain diverges from the code in
two ways. On the input `["a=b"]` strategy 2 parses a JSON list, collects
nothing, and returns the empty map terminally, whereas the chain the claim
describes would fall through to strategy 5 and produce a non-empty map. And
on the input `[{"name":[1],"value":"x"}]` the comprehension of strategy 2
raises an uncaught `TypeError` (the list-valued `name` is unhashable) that
aborts the whole parse, whereas under the claimed chain - where a throwing
strategy falls through - the remaining strategies would run and return the
empty map. -/
theorem C4_counterexample :
    parse_cookies7 "[\"a=b\"]" "txt" = [] ∧
    claimChainC4 "[\"a=b\"]" "txt" = [("[\"a", "b\"]")] ∧
    parse_cookies7 "[\"a=b\"]" "txt" ≠ claimChainC4 "[\"a=b\"]" "txt" ∧
    parse_cookies7E "[\x7b\"name\":[1],\"value\":\"x\"\x7d]" "txt" =
      .error PyExn.typeError ∧
    claimChainC4 "[\x7b\"name\":[1],\"value\":\"x\"\x7d]" "txt" = [] :=
  ⟨rfl, rfl, by decide, rfl, rfl⟩

/-- Claim C6 (counterexample): when the service-code pattern matches twice,
the observer of src/service.py lines 226-227 keeps the last match, not the
first: each match of the `finditer` loop overwrites `service_code`. -/
theorem C6_counterexample :
    (observeAll twoCodesTexts).service_code = some "222222" ∧
    firstAuthCode twoCodesTexts = some "111111" ∧
    (observeAll twoCodesTexts).service_code ≠ firstAuthCode twoCodesTexts :=
  ⟨rfl, rfl, by decide⟩

/-- Claim C7 (counterexample): an introspection result can carry a service
code that is not six digits. The pattern of src/service.py line 226 captures
`(\d+)` of any length, so a seven-digit `authCode` is retained as the service
code, and its rendering splits it three-and-four. -/
theorem C7_counterexample :
    (observeAll sevenDigitTexts).service_code = some "1234567" ∧
    ("1234567" : String).length ≠ 6 ∧
    renderServiceCode "1234567" = "123-4567" :=
  ⟨rfl, by decide, rfl⟩

/-- Claim C8 (counterexample): the src/bot2.py validator does not restrict
the outgoing session to the two identifiers. Two parsed maps that agree on
`NetflixId` and `SecureNetflixId` but differ in a tracking cookie send
different outgoing cookie sets, and under one and the same network behaviour
produce different validation results. -/
theorem C8_counterexample :
    dictLookup "NetflixId" mapA = dictLookup "NetflixId" mapB ∧
    dictLookup "SecureNetflixId" mapA = dictLookup "SecureNetflixId" mapB ∧
    dictLookup "trk" mapA ≠ dictLookup "trk" mapB ∧
    validateWithCookies2 netTrk mapA = .checked true "" ∧
    validateWithCookies2 netTrk mapB = .checked false "" :=
  ⟨rfl, rfl, by decide, rfl, rfl⟩

/-- Claim C2 (amended): the sub-fetch fan-out degrades names but not
exceptions. When no sub-fetch raises, the batch reports every profile in
order, each display name falling back to the GUID; but when any sub-fetch
raises, the whole introspection call aborts with an error and no profile is
reported - the throwing profile is not merely excluded. -/
theorem C2_subfetch_isolation_amended (net : String → FetchOutcome) (guids : List String) :
    ((∀ g ∈ guids, isCrash (net g) = false) →
      runProfileFetches net guids =
        .ok (guids.map fun g => ((profNameOf (pagesOf (net g))).getD g, datesOf (pagesOf (net g))))) ∧
    (∀ g ∈ guids, ∀ e, net g = .crash e →
      ∃ e', runProfileFetches net guids = .error e') := by
  induction guids with
  | nil =>
    refine ⟨fun _ => rfl, fun g hg => absurd hg (List.not_mem_nil g)⟩
  | cons a t ih =>
    constructor
    · intro h
      cases hna : net a with
      | crash e =>
        have ha := h a (List.mem_cons_self a t)
        rw [hna] at ha
        simp [isCrash] at ha
      | pages ts =>
        have ht := ih.1 fun g hg => h g (List.mem_cons_of_mem a hg)
        simp only [runProfileFetches, List.map_cons, fetch_profile, hna, gatherE] at ht ⊢
        rw [ht]
        rfl
    · intro g hg e hge
      rcases List.mem_cons.mp hg with rfl | hgt
      · refine ⟨e, ?_⟩
        simp [runProfileFetches, List.map_cons, fetch_profile, hge, gatherE]
      · cases hna : net a with
        | crash e' =>
          refine ⟨e', ?_⟩
          simp [runProfileFetches, List.map_cons, fetch_profile, hna, gatherE]
        | pages ts =>
          obtain ⟨e', he'⟩ := ih.2 g hgt e hge
          refine ⟨e', ?_⟩
          simp only [runProfileFetches, List.map_cons, fetch_profile, hna, gatherE]
          simp only [runProfileFetches] at he'
          rw [he']
          rfl

/-- Claim C2 witness: the amended statement evaluated concretely - a batch
with every sub-fetch succeeding reports both profiles, and a batch with one
crashing sub-fetch aborts with an error. -/
theorem C2_witness :
    runProfileFetches netAllOk ["g1", "g2"] = .ok [("P2", [5]), ("P2", [5])] ∧
    ∃ e', runProfileFetches netOneCrash ["g1", "g2"] = .error e' := by
  constructor
  · have h := (C2_subfetch_isolation_amended netAllOk ["g1", "g2"]).1 (by decide)
    rw [h]
    rfl
  · exact (C2_subfetch_isolation_amended netOneCrash ["g1", "g2"]).2 "g1"
      (by decide) .playwrightTimeout rfl

/-- Auxiliary: one comprehension step raises nothing but the unhashable-name
`TypeError`, and preserves an already-raised one. -/
theorem jsonStep7_error_eq (acc : Except PyExn CookieMap) (c : JVal) (e : PyExn)
    (hacc : ∀ e', acc = .error e' → e' = PyExn.typeError)
    (h : jsonStep7 acc c = .error e) : e = PyExn.typeError := by
  cases acc with
  | error e0 =>
    have h0 : jsonStep7 (.error e0) c = .error e0 := by
      cases c <;> rfl
    rw [h0] at h
    exact Except.error.inj h ▸ hacc e0 rfl
  | ok m =>
    cases c with
    | jobj ms =>
      simp only [jsonStep7] at h
      split at h
      · split at h
        · exact (Except.error.inj h).symm
        · nomatch h
      · nomatch h
    | jnull => nomatch h
    | jbool b => nomatch h
    | jnum r => nomatch h
    | jstr s => nomatch h
    | jarr l => nomatch h

/-- Auxiliary: the only exception the strategy-2 comprehension of
src/bot7.py raises is the unhashable-name `TypeError`. -/
theorem buildJsonDict7_error_eq (l : List JVal) (e : PyExn)
    (h : buildJsonDict7 l = .error e) : e = PyExn.typeError := by
  have gen : ∀ (l' : List JVal) (acc : Except PyExn CookieMap),
      (∀ e', acc = .error e' → e' = PyExn.typeError) →
      ∀ e', l'.foldl jsonStep7 acc = .error e' → e' = PyExn.typeError := by
    intro l'
    induction l' with
    | nil => intro acc hacc e' h'; exact hacc e' h'
    | cons c t ih =>
      intro acc hacc e' h'
      rw [List.foldl_cons] at h'
      exact ih (jsonStep7 acc c) (fun e2 h2 => jsonStep7_error_eq acc c e2 hacc h2) e' h'
  exact gen l (.ok []) (fun e' h' => nomatch h') e h

/-- Auxiliary: the only exception escaping src/bot7.py's parse_cookies is
the comprehension's `TypeError` - every `JSONDecodeError` is caught, and no
other strategy raises. -/
theorem parse_cookies7E_error_typeError (content ftype : String) (e : PyExn)
    (h : parse_cookies7E content ftype = .error e) : e = PyExn.typeError := by
  unfold parse_cookies7E at h
  cases h1 : scanAssign netflixLit content.data <;>
    cases h2 : scanAssign secureLit content.data <;>
    rw [h1, h2] at h
  case some.some => nomatch h
  all_goals (
    cases hg : strat2gate content ftype <;>
      simp only [hg, Bool.false_eq_true, if_false, if_true, reduceIte, jsonLoadsE] at h
    · split at h <;> nomatch h
    · cases hj : jsonLoads content <;> simp only [hj] at h
      · split at h <;> nomatch h
      · next v =>
        cases v with
        | jarr l =>
          simp only [] at h
          cases hb : buildJsonDict7 l with
          | error e1 =>
            rw [hb] at h
            rw [← Except.error.inj h]
            exact buildJsonDict7_error_eq l e1 hb
          | ok m1 =>
            rw [hb] at h
            nomatch h
        | jnull =>
          simp only [] at h
          split at h <;> nomatch h
        | jbool b =>
          simp only [] at h
          split at h <;> nomatch h
        | jnum r =>
          simp only [] at h
          split at h <;> nomatch h
        | jstr s =>
          simp only [] at h
          split at h <;> nomatch h
        | jobj ms =>
          simp only [] at h
          split at h <;> nomatch h)

/-- Auxiliary: when the exception-aware bot7 parser returns a map, the
exception-free reading is exactly that map. -/
theorem parse_cookies7_ofE (content ftype : String) (m : CookieMap)
    (h : parse_cookies7E content ftype = .ok m) :
    parse_cookies7 content ftype = m := by
  unfold parse_cookies7
  rw [h]

/-- Claim C5 (counterexample): the bot7 parser is not total. On the valid
JSON input `[{"name":[],"value":""}]` the gated JSON strategy parses a list
whose element carries an unhashable list-valued `name`; the comprehension of
src/bot7.py line 75 raises `TypeError` at the key insertion, the catch of
line 80 names `json.JSONDecodeError` alone, and the exception escapes
parse_cookies to its caller. The service parser, whose catch-all covers the
same raise, falls through to its remaining strategies and returns the empty
map on the identical input. -/
theorem C5_counterexample :
    parse_cookies7E "[\x7b\"name\":[],\"value\":\"\"\x7d]" "txt" =
      .error PyExn.typeError ∧
    parse_cookiesSE "[\x7b\"name\":[],\"value\":\"\"\x7d]" = .ok [] :=
  ⟨rfl, rfl⟩

/-- Claim C5 (amended): the service parser is total - its catch-all covers
every raise of its strategy body - and the bot7 parser is total up to one
exception path: its exception-aware translation either returns the map of
the exception-free reading, or raises the comprehension's unhashable-name
`TypeError`, the one exception that escapes the `json.JSONDecodeError`-only
catch of src/bot7.py line 80. -/
theorem C5_parser_total_amended (content ftype : String) :
    (parse_cookies7E content ftype = .ok (parse_cookies7 content ftype) ∨
      parse_cookies7E content ftype = .error PyExn.typeError) ∧
    parse_cookiesSE content = .ok (parse_cookiesS content) := by
  constructor
  · cases hE : parse_cookies7E content ftype with
    | ok m =>
      left
      unfold parse_cookies7
      rw [hE]
    | error e =>
      right
      rw [parse_cookies7E_error_typeError content ftype e hE]
  · unfold parse_cookiesSE parse_cookiesS
    cases tryJsonS content with
    | error e => rfl
    | ok o => cases o <;> rfl

/-- Auxiliary: the strategies-3-to-5 tail of src/bot7.py's parse_cookies
equals the corresponding strategy chain: the pipe map when sufficient, else
the non-empty Netscape map, else semicolon pairs. -/
theorem chainTail_eq (content ftype : String) :
    (match strat3 content with
      | some m => (Except.ok m : Except PyExn CookieMap)
      | none =>
        Except.ok
          (if !(netscape7 content.data).isEmpty then netscape7 content.data
           else semiParse7 content.data)) =
      runChainE [fun c _ => .ok (strat3 c), fun c _ => .ok (strat4 c)]
        (fun c _ => semiParse7 c.data) content ftype := by
  simp only [runChainE]
  cases hs3 : strat3 content
  · simp only [strat4]
    cases hn : (netscape7 content.data).isEmpty <;> rfl
  · rfl

/-- Claim C4 (amended): the parser is the strategy chain with these
qualifications - strategies are tried in the order 1 to 5; strategy 2 runs
only under its gate, returns terminally whenever its JSON parse yields a
list and the comprehension returns - even when the collected map is empty -
and aborts the whole parse with the comprehension's `TypeError` when an
element's `name` is an unhashable container; strategy 3's map counts only
when it carries both required identifiers; strategy 4 falls through when
empty; and strategy 5's map is returned unconditionally. -/
theorem C4_strategy_chain_amended (content ftype : String) :
    parse_cookies7E content ftype = amendedChainE content ftype := by
  unfold parse_cookies7E amendedChainE
  simp only [runChainE, strat1]
  cases h1 : scanAssign netflixLit content.data <;>
    cases h2 : scanAssign secureLit content.data <;>
    simp only [h1, h2]
  all_goals (
    cases hg : strat2gate content ftype <;>
      simp only [strat2E, hg, Bool.false_eq_true, if_false, if_true, reduceIte, jsonLoadsE]
    · exact chainTail_eq content ftype
    · cases hj : jsonLoads content <;> simp only [hj]
      · exact chainTail_eq content ftype
      · next v =>
        cases v with
        | jarr l =>
          simp only []
          cases hb : buildJsonDict7 l <;> rfl
        | jnull => exact chainTail_eq content ftype
        | jbool b => exact chainTail_eq content ftype
        | jnum r => exact chainTail_eq content ftype
        | jstr s => exact chainTail_eq content ftype
        | jobj ms => exact chainTail_eq content ftype)

/-- Auxiliary: the last element of a concatenation, match form. -/
theorem getLast?_append_match {α : Type} (l1 l2 : List α) :
    (l1 ++ l2).getLast? =
      match l2.getLast? with
      | some x => some x
      | none => l1.getLast? := by
  cases h2 : l2.getLast? with
  | none =>
    have : l2 = [] := List.getLast?_eq_none_iff.mp h2
    subst this
    simp
  | some x =>
    have hne : l2 ≠ [] := by
      intro he
      subst he
      simp at h2
    rw [List.getLast?_append_of_ne_nil l1 hne, h2]

/-- Auxiliary: folding repeated assignment keeps the last value, or the
initial one when there is nothing to assign. -/
theorem foldl_overwrite (l : List (List Char)) (p : Option String) :
    l.foldl (fun _ c => some (String.mk c)) p =
      match l.getLast? with
      | some c => some (String.mk c)
      | none => p := by
  induction l generalizing p with
  | nil => rfl
  | cons a t ih =>
    rw [List.foldl_cons, ih]
    cases t with
    | nil => rfl
    | cons b u =>
      rw [List.getLast?_cons_cons]
      cases h : (b :: u).getLast? with
      | none => exact absurd (List.getLast?_eq_none_iff.mp h) (by simp)
      | some c => rfl

/-- Auxiliary: the service code after folding the observer is the last
`authCode` capture, or the initial code when no response matched. -/
theorem foldl_on_resp_code (texts : List (Option String)) (st : ObsState) :
    (texts.foldl on_resp st).service_code =
      match (allAuthCaps texts).getLast? with
      | some c => some (String.mk c)
      | none => st.service_code := by
  induction texts generalizing st with
  | nil => rfl
  | cons t rest ih =>
    cases t with
    | none =>
      rw [List.foldl_cons, ih]
      simp [on_resp, allAuthCaps]
    | some b =>
      rw [List.foldl_cons, ih]
      have hsplit : allAuthCaps (some b :: rest) =
          allCaps (matchQuoted ("\"authCode\"").data Char.isDigit) b.data ++ allAuthCaps rest := by
        simp [allAuthCaps]
      rw [hsplit, getLast?_append_match]
      have hr : (on_resp st (some b)).service_code =
          match (allCaps (matchQuoted ("\"authCode\"").data Char.isDigit) b.data).getLast? with
          | some c => some (String.mk c)
          | none => st.service_code := by
        simp only [on_resp]
        exact foldl_overwrite _ _
      rw [hr]
      cases (allAuthCaps rest).getLast? <;> rfl

/-- Claim C6 (amended): across the whole response stream, the retained
service code is the last `authCode` match ever observed - each match of the
observer loop of src/service.py line 227 overwrites the previous one, and a
response with no match leaves the code unchanged. -/
theorem C6_last_match_amended (texts : List (Option String)) :
    (observeAll texts).service_code = lastAuthCode texts := by
  unfold observeAll lastAuthCode
  rw [foldl_on_resp_code]
  cases (allAuthCaps texts).getLast? <;> rfl

/-- Auxiliary: every capture of `matchQuoted` is a non-empty run of
characters of its class. -/
theorem matchQuoted_cap_sound (lit : List Char) (good : Char → Bool) (cs : List Char)
    (m : MatchCap) (h : matchQuoted lit good cs = some m) :
    m.cap ≠ [] ∧ ∀ c ∈ m.cap, good c = true := by
  unfold matchQuoted at h
  by_cases h1 : listIsPref lit cs = true
  · rw [if_pos h1] at h
    simp only [] at h
    split at h
    · split at h
      · split at h
        · exact nomatch h
        · split at h
          · injection h with h
            subst h
            refine ⟨?_, fun c hc => List.mem_takeWhile_imp hc⟩
            simp_all [List.isEmpty_iff]
          · exact nomatch h
      · exact nomatch h
    · exact nomatch h
  · rw [if_neg h1] at h
    exact nomatch h

/-- Auxiliary: a property of every capture of a matcher transfers to every
capture `finditer` collects. -/
theorem allCapsGo_sound {P : List Char → Prop} (f : List Char → Option MatchCap)
    (hf : ∀ cs m, f cs = some m → P m.cap) :
    ∀ (fuel : Nat) (cs : List Char) (c : List Char), c ∈ allCapsGo f fuel cs → P c := by
  intro fuel
  induction fuel with
  | zero =>
    intro cs c hc
    simp [allCapsGo] at hc
  | succ n ih =>
    intro cs c hc
    cases cs with
    | nil => simp [allCapsGo] at hc
    | cons a rest =>
      cases hm : f (a :: rest) with
      | some m =>
        simp only [allCapsGo, hm] at hc
        rcases List.mem_cons.mp hc with rfl | h2
        · exact hf _ _ hm
        · exact ih _ _ h2
      | none =>
        simp only [allCapsGo, hm] at hc
        exact ih _ _ hc

/-- Claim C7 (amended): whenever an introspection result carries a service
code, that code is a non-empty string of decimal digits of arbitrary length
- the pattern of src/service.py line 226 captures `(\d+)`, not six digits -
and its rendered form is the first three characters, a dash, then the whole
remainder; only when the code happens to have six digits is that two groups
of three. -/
theorem C7_service_code_amended (texts : List (Option String)) (c : String)
    (h : (observeAll texts).service_code = some c) :
    c.data ≠ [] ∧ (∀ ch ∈ c.data, ch.isDigit = true) ∧
    renderServiceCode c = String.mk (c.data.take 3) ++ "-" ++ String.mk (c.data.drop 3) ∧
    (c.data.length = 6 → (c.data.take 3).length = 3 ∧ (c.data.drop 3).length = 3) := by
  unfold observeAll at h
  rw [foldl_on_resp_code] at h
  cases hl : (allAuthCaps texts).getLast? with
  | none =>
    rw [hl] at h
    exact absurd h (by simp)
  | some cap =>
    rw [hl] at h
    injection h with h
    subst h
    have hmem : cap ∈ allAuthCaps texts := by
      have hmem0 : cap ∈ (allAuthCaps texts).getLast? := by
        rw [Option.mem_def]
        exact hl
      obtain ⟨hne, he⟩ := List.mem_getLast?_eq_getLast hmem0
      rw [he]
      exact List.getLast_mem hne
    have hprop : cap ≠ [] ∧ ∀ ch ∈ cap, ch.isDigit = true := by
      unfold allAuthCaps at hmem
      obtain ⟨l, hl1, hl2⟩ := List.mem_flatten.mp hmem
      obtain ⟨t, _, rfl⟩ := List.mem_map.mp hl1
      exact @allCapsGo_sound (fun cap => cap ≠ [] ∧ ∀ ch ∈ cap, ch.isDigit = true) _
        (fun cs m hm => matchQuoted_cap_sound _ _ cs m hm) _ _ _ hl2
    refine ⟨hprop.1, hprop.2, rfl, fun h6 => ⟨?_, ?_⟩⟩
    · simp [List.length_take, h6]
    · simp [List.length_drop, h6]

/-- Claim C7 witness: the amended statement at a concrete six-digit service
code, whose rendering is then two groups of three. -/
theorem C7_witness :
    (observeAll sixDigitTexts).service_code = some "123456" ∧
    ("123456" : String).data ≠ [] ∧
    (∀ ch ∈ ("123456" : String).data, ch.isDigit = true) ∧
    renderServiceCode "123456" = "123-456" := by
  have h : (observeAll sixDigitTexts).service_code = some "123456" := rfl
  have hth := C7_service_code_amended sixDigitTexts "123456" h
  exact ⟨h, hth.1, hth.2.1, rfl⟩

/-- Auxiliary: lookup in a key-filtered dict. -/
theorem dictLookup_filter (p : String → Bool) (k : String) (m : CookieMap) :
    dictLookup k (m.filter fun kv => p kv.1) =
      if p k = true then dictLookup k m else none := by
  induction m with
  | nil => simp [dictLookup]
  | cons kv r ih =>
    obtain ⟨k', v⟩ := kv
    by_cases hp : p k' = true
    · rw [List.filter_cons_of_pos (by simpa using hp)]
      by_cases hk : k' = k
      · subst hk
        simp [dictLookup, hp]
      · simp [dictLookup, hk, ih]
    · rw [List.filter_cons_of_neg (by simpa using hp)]
      by_cases hk : k' = k
      · subst hk
        simp [dictLookup, hp, ih]
      · simp [dictLookup, hk, ih]

/-- Auxiliary: the session-cookie filter output is empty exactly when neither
identifier is present. -/
theorem session_cookies_isEmpty (m : CookieMap) :
    (session_cookies m).isEmpty =
      ((dictLookup "NetflixId" m).isNone && (dictLookup "SecureNetflixId" m).isNone) := by
  induction m with
  | nil => rfl
  | cons kv r ih =>
    obtain ⟨k, v⟩ := kv
    by_cases h1 : k = "NetflixId"
    · subst h1
      simp [session_cookies, dictLookup]
    · by_cases h2 : k = "SecureNetflixId"
      · subst h2
        simp [session_cookies, dictLookup]
      · simp only [session_cookies, List.filter] at ih ⊢
        rw [show ((k == "NetflixId" || k == "SecureNetflixId")) = false by simp [h1, h2]]
        simp only [dictLookup, if_neg h1, if_neg h2]
        exact ih

/-- Claim C8 (amended): the src/bot7.py validator depends only on the two
session identifiers - maps agreeing on `NetflixId` and `SecureNetflixId`
filter to the same outgoing cookie set and, under any one network behaviour,
produce the same outcome. The src/bot2.py validator, by contrast, forwards
the whole parsed map, so the restriction holds for the bot7 path only. -/
theorem C8_session_cookie_restriction_amended (m1 m2 : CookieMap)
    (hN : dictLookup "NetflixId" m1 = dictLookup "NetflixId" m2)
    (hS : dictLookup "SecureNetflixId" m1 = dictLookup "SecureNetflixId" m2) :
    (∀ k, dictLookup k (session_cookies m1) = dictLookup k (session_cookies m2)) ∧
    ∀ net, validateWithCookies7 net m1 = validateWithCookies7 net m2 := by
  have hpt : ∀ k, dictLookup k (session_cookies m1) = dictLookup k (session_cookies m2) := by
    intro k
    unfold session_cookies
    rw [dictLookup_filter (fun s => s == "NetflixId" || s == "SecureNetflixId"),
      dictLookup_filter (fun s => s == "NetflixId" || s == "SecureNetflixId")]
    by_cases hk : ((k == "NetflixId") || (k == "SecureNetflixId")) = true
    · rw [if_pos hk, if_pos hk]
      rcases Bool.or_eq_true_iff.mp hk with h | h
      · rw [show k = "NetflixId" from by simpa using h]
        exact hN
      · rw [show k = "SecureNetflixId" from by simpa using h]
        exact hS
    · rw [if_neg hk, if_neg hk]
  refine ⟨hpt, fun net => ?_⟩
  simp only [validateWithCookies7]
  have hempty : (session_cookies m1).isEmpty = (session_cookies m2).isEmpty := by
    rw [session_cookies_isEmpty, session_cookies_isEmpty, hN, hS]
  rw [hempty, funext hpt]

/-- Claim C8 witness: the amended statement at two concrete maps that agree
on the identifiers (in a different entry order, one with an extra language
cookie): the filtered outgoing sets agree and the bot7 outcome is the same
under a concrete network behaviour. -/
theorem C8_witness :
    dictLookup "lang" (session_cookies mapW1) = dictLookup "lang" (session_cookies mapW2) ∧
    validateWithCookies7 netSess mapW1 = validateWithCookies7 netSess mapW2 := by
  have h := C8_session_cookie_restriction_amended mapW1 mapW2 (by decide) (by decide)
  exact ⟨h.1 "lang", h.2 netSess⟩

/-- Auxiliary: the concrete characters of the NetflixId literal. -/
theorem netflixLit_eq : netflixLit = ['N', 'e', 't', 'f', 'l', 'i', 'x', 'I', 'd', '='] := rfl

/-- Auxiliary: the concrete characters of the SecureNetflixId literal. -/
theorem secureLit_eq :
    secureLit = ['S', 'e', 'c', 'u', 'r', 'e', 'N', 'e', 't', 'f', 'l', 'i', 'x', 'I', 'd', '='] :=
  rfl

/-- Auxiliary: a list is a prefix of itself extended. -/
theorem listIsPref_refl_append (p t : List Char) : listIsPref p (p ++ t) = true := by
  induction p with
  | nil => rfl
  | cons a as ih => simp [listIsPref, ih]

/-- Auxiliary: the Boolean prefix test characterized by a tail. -/
theorem listIsPref_iff_append (p cs : List Char) :
    listIsPref p cs = true ↔ ∃ t, cs = p ++ t := by
  constructor
  · intro h
    induction p generalizing cs with
    | nil => exact ⟨cs, rfl⟩
    | cons a as ih =>
      cases cs with
      | nil => exact absurd h (by simp [listIsPref])
      | cons b bs =>
        simp only [listIsPref, Bool.and_eq_true, beq_iff_eq] at h
        obtain ⟨t, ht⟩ := ih bs h.2
        exact ⟨t, by rw [h.1, ht]; rfl⟩
  · rintro ⟨t, rfl⟩
    exact listIsPref_refl_append p t

/-- Auxiliary: the identifier scan steps over a position where the literal
does not start. -/
theorem scanAssignAux_cons_not (pat : List Char) (c : Char) (rest : List Char)
    (h : listIsPref pat (c :: rest) = false) :
    scanAssignAux pat (c :: rest) = scanAssignAux pat rest := by
  simp only [scanAssignAux, h]
  rfl

/-- Auxiliary: the identifier scan succeeds where its literal starts and is
followed by a non-empty token. -/
theorem scanAssignAux_append_self_tok (a : Char) (as t : List Char)
    (hne : t.takeWhile isTokChar ≠ []) :
    scanAssignAux (a :: as) ((a :: as) ++ t) = some (t.takeWhile isTokChar) := by
  have h1 : listIsPref (a :: as) (a :: (as ++ t)) = true := by
    rw [← List.cons_append]
    exact listIsPref_refl_append (a :: as) t
  have h2 : List.drop (a :: as).length (a :: (as ++ t)) = t := by
    rw [← List.cons_append]
    exact List.drop_left (a :: as) t
  rw [List.cons_append]
  simp only [scanAssignAux, h1, if_true, h2]

/-- Auxiliary: the identifier scan steps over a position where its literal
starts but the token after it is empty. -/
theorem scanAssignAux_cons_self_empty (a : Char) (as t : List Char)
    (hemp : t.takeWhile isTokChar = []) :
    scanAssignAux (a :: as) ((a :: as) ++ t) = scanAssignAux (a :: as) (as ++ t) := by
  have h1 : listIsPref (a :: as) (a :: (as ++ t)) = true := by
    rw [← List.cons_append]
    exact listIsPref_refl_append (a :: as) t
  have h2 : List.drop (a :: as).length (a :: (as ++ t)) = t := by
    rw [← List.cons_append]
    exact List.drop_left (a :: as) t
  rw [List.cons_append]
  simp only [scanAssignAux, h1, if_true, h2, hemp]

/-- Auxiliary: no occurrence starts at or beyond the end of the text. -/
theorem occursAt_of_ge (p : Char) (ps cs : List Char) (i : Nat) (hi : cs.length ≤ i) :
    occursAt (p :: ps) cs i = false := by
  unfold occursAt
  rw [List.drop_eq_nil_of_le hi]
  rfl

/-- Auxiliary: the no-standalone-assignment condition descends from a text to
its tail, given that any assignment at position 6 of the text is ruled
out. -/
theorem hno_transfer (c : Char) (rest : List Char)
    (hno : ∀ i, occursAt netflixLit (c :: rest) i = true → tokAt (c :: rest) (i + 10) ≠ [] →
      6 ≤ i ∧ occursAt secureLit (c :: rest) (i - 6) = true)
    (hx : occursAt netflixLit (c :: rest) 6 = true → tokAt (c :: rest) 16 ≠ [] → False) :
    ∀ j, occursAt netflixLit rest j = true → tokAt rest (j + 10) ≠ [] →
      6 ≤ j ∧ occursAt secureLit rest (j - 6) = true := by
  intro j hj htokj
  have hcs : occursAt netflixLit (c :: rest) (j + 1) = true := by
    rw [occursAt, List.drop_succ_cons]
    exact hj
  have htokcs : tokAt (c :: rest) (j + 1 + 10) ≠ [] := by
    rw [show j + 1 + 10 = (j + 10) + 1 from by omega, tokAt, List.drop_succ_cons]
    exact htokj
  obtain ⟨h6, hsec6⟩ := hno (j + 1) hcs htokcs
  have hj6 : 6 ≤ j := by
    rcases Nat.lt_or_ge j 6 with hlt | hge
    · have hj5 : j = 5 := by omega
      subst hj5
      exact (hx hcs htokcs).elim
    · exact hge
  refine ⟨hj6, ?_⟩
  rw [show j + 1 - 6 = (j - 6) + 1 from by omega, occursAt, List.drop_succ_cons] at hsec6
  exact hsec6

/-- Auxiliary: when every NetflixId= assignment in the text lies six
characters inside a SecureNetflixId= assignment, the two identifier scans of
strategy 1 return the same capture. -/
theorem scanAux_sec_net (cs : List Char)
    (hno : ∀ i, occursAt netflixLit cs i = true → tokAt cs (i + 10) ≠ [] →
      6 ≤ i ∧ occursAt secureLit cs (i - 6) = true) :
    scanAssignAux netflixLit cs = scanAssignAux secureLit cs := by
  induction cs with
  | nil => rfl
  | cons c rest ih =>
    by_cases hsec : listIsPref secureLit (c :: rest) = true
    · obtain ⟨t, hcs⟩ := (listIsPref_iff_append _ _).mp hsec
      rw [secureLit_eq] at hcs
      simp only [List.cons_append, List.nil_append] at hcs
      injection hcs with hc hrest
      subst hc
      subst hrest
      by_cases htok : t.takeWhile isTokChar = []
      · have eS : scanAssignAux secureLit
            ('S' :: 'e' :: 'c' :: 'u' :: 'r' :: 'e' :: 'N' :: 'e' :: 't' :: 'f' :: 'l' :: 'i' :: 'x' :: 'I' :: 'd' :: '=' ::t) =
            scanAssignAux secureLit
            ('e' :: 'c' :: 'u' :: 'r' :: 'e' :: 'N' :: 'e' :: 't' :: 'f' :: 'l' :: 'i' :: 'x' :: 'I' :: 'd' :: '=' ::t) :=
          scanAssignAux_cons_self_empty 'S'
            ['e', 'c', 'u', 'r', 'e', 'N', 'e', 't', 'f', 'l', 'i', 'x', 'I', 'd', '='] t htok
        have eN : scanAssignAux netflixLit
            ('S' :: 'e' :: 'c' :: 'u' :: 'r' :: 'e' :: 'N' :: 'e' :: 't' :: 'f' :: 'l' :: 'i' :: 'x' :: 'I' :: 'd' :: '=' ::t) =
            scanAssignAux netflixLit
            ('e' :: 'c' :: 'u' :: 'r' :: 'e' :: 'N' :: 'e' :: 't' :: 'f' :: 'l' :: 'i' :: 'x' :: 'I' :: 'd' :: '=' ::t) :=
          scanAssignAux_cons_not netflixLit 'S' _ (by rfl)
        rw [eS, eN]
        refine ih (hno_transfer 'S' _ hno ?_)
        intro _ htok16
        exact htok16 (by exact htok)
      · have eS : scanAssignAux secureLit
            ('S' :: 'e' :: 'c' :: 'u' :: 'r' :: 'e' :: 'N' :: 'e' :: 't' :: 'f' :: 'l' :: 'i' :: 'x' :: 'I' :: 'd' :: '=' ::t) =
            some (t.takeWhile isTokChar) :=
          scanAssignAux_append_self_tok 'S'
            ['e', 'c', 'u', 'r', 'e', 'N', 'e', 't', 'f', 'l', 'i', 'x', 'I', 'd', '='] t htok
        have eN1 : scanAssignAux netflixLit
            ('S' :: 'e' :: 'c' :: 'u' :: 'r' :: 'e' :: 'N' :: 'e' :: 't' :: 'f' :: 'l' :: 'i' :: 'x' :: 'I' :: 'd' :: '=' ::t) =
            scanAssignAux netflixLit
            ('e' :: 'c' :: 'u' :: 'r' :: 'e' :: 'N' :: 'e' :: 't' :: 'f' :: 'l' :: 'i' :: 'x' :: 'I' :: 'd' :: '=' ::t) :=
          scanAssignAux_cons_not netflixLit 'S' _ (by rfl)
        have eN2 : scanAssignAux netflixLit
            ('e' :: 'c' :: 'u' :: 'r' :: 'e' :: 'N' :: 'e' :: 't' :: 'f' :: 'l' :: 'i' :: 'x' :: 'I' :: 'd' :: '=' ::t) =
            scanAssignAux netflixLit
            ('c' :: 'u' :: 'r' :: 'e' :: 'N' :: 'e' :: 't' :: 'f' :: 'l' :: 'i' :: 'x' :: 'I' :: 'd' :: '=' ::t) :=
          scanAssignAux_cons_not netflixLit 'e' _ (by rfl)
        have eN3 : scanAssignAux netflixLit
            ('c' :: 'u' :: 'r' :: 'e' :: 'N' :: 'e' :: 't' :: 'f' :: 'l' :: 'i' :: 'x' :: 'I' :: 'd' :: '=' ::t) =
            scanAssignAux netflixLit
            ('u' :: 'r' :: 'e' :: 'N' :: 'e' :: 't' :: 'f' :: 'l' :: 'i' :: 'x' :: 'I' :: 'd' :: '=' ::t) :=
          scanAssignAux_cons_not netflixLit 'c' _ (by rfl)
        have eN4 : scanAssignAux netflixLit
            ('u' :: 'r' :: 'e' :: 'N' :: 'e' :: 't' :: 'f' :: 'l' :: 'i' :: 'x' :: 'I' :: 'd' :: '=' ::t) =
            scanAssignAux netflixLit
            ('r' :: 'e' :: 'N' :: 'e' :: 't' :: 'f' :: 'l' :: 'i' :: 'x' :: 'I' :: 'd' :: '=' ::t) :=
          scanAssignAux_cons_not netflixLit 'u' _ (by rfl)
        have eN5 : scanAssignAux netflixLit
            ('r' :: 'e' :: 'N' :: 'e' :: 't' :: 'f' :: 'l' :: 'i' :: 'x' :: 'I' :: 'd' :: '=' ::t) =
            scanAssignAux netflixLit
            ('e' :: 'N' :: 'e' :: 't' :: 'f' :: 'l' :: 'i' :: 'x' :: 'I' :: 'd' :: '=' ::t) :=
          scanAssignAux_cons_not netflixLit 'r' _ (by rfl)
        have eN6 : scanAssignAux netflixLit
            ('e' :: 'N' :: 'e' :: 't' :: 'f' :: 'l' :: 'i' :: 'x' :: 'I' :: 'd' :: '=' ::t) =
            scanAssignAux netflixLit
            ('N' :: 'e' :: 't' :: 'f' :: 'l' :: 'i' :: 'x' :: 'I' :: 'd' :: '=' ::t) :=
          scanAssignAux_cons_not netflixLit 'e' _ (by rfl)
        have eN7 : scanAssignAux netflixLit
            ('N' :: 'e' :: 't' :: 'f' :: 'l' :: 'i' :: 'x' :: 'I' :: 'd' :: '=' ::t) =
            some (t.takeWhile isTokChar) :=
          scanAssignAux_append_self_tok 'N' ['e', 't', 'f', 'l', 'i', 'x', 'I', 'd', '='] t htok
        rw [eN1, eN2, eN3, eN4, eN5, eN6, eN7, eS]
    · by_cases hnet : listIsPref netflixLit (c :: rest) = true
      · obtain ⟨t, hcs⟩ := (listIsPref_iff_append _ _).mp hnet
        rw [netflixLit_eq] at hcs
        simp only [List.cons_append, List.nil_append] at hcs
        injection hcs with hc hrest
        subst hc
        subst hrest
        by_cases htok : t.takeWhile isTokChar = []
        · have eN : scanAssignAux netflixLit
              ('N' :: 'e' :: 't' :: 'f' :: 'l' :: 'i' :: 'x' :: 'I' :: 'd' :: '=' ::t) =
              scanAssignAux netflixLit
              ('e' :: 't' :: 'f' :: 'l' :: 'i' :: 'x' :: 'I' :: 'd' :: '=' ::t) :=
            scanAssignAux_cons_self_empty 'N' ['e', 't', 'f', 'l', 'i', 'x', 'I', 'd', '='] t htok
          have eS : scanAssignAux secureLit
              ('N' :: 'e' :: 't' :: 'f' :: 'l' :: 'i' :: 'x' :: 'I' :: 'd' :: '=' ::t) =
              scanAssignAux secureLit
              ('e' :: 't' :: 'f' :: 'l' :: 'i' :: 'x' :: 'I' :: 'd' :: '=' ::t) :=
            scanAssignAux_cons_not secureLit 'N' _ (Bool.eq_false_iff.mpr hsec)
          rw [eN, eS]
          refine ih (hno_transfer 'N' _ hno ?_)
          intro hocc htok16
          have h0 := (hno 6 hocc htok16).2
          rw [occursAt, List.drop_zero] at h0
          exact hsec h0
        · have h0 : occursAt netflixLit
              ('N' :: 'e' :: 't' :: 'f' :: 'l' :: 'i' :: 'x' :: 'I' :: 'd' :: '=' ::t) 0 = true := by
            rw [occursAt, List.drop_zero]
            exact hnet
          have htok0 : tokAt ('N' :: 'e' :: 't' :: 'f' :: 'l' :: 'i' :: 'x' :: 'I' :: 'd' :: '=' ::t) (0 + 10) ≠ [] := by
            rw [tokAt]
            exact htok
          obtain ⟨h6, _⟩ := hno 0 h0 htok0
          omega
      · have eN : scanAssignAux netflixLit (c :: rest) = scanAssignAux netflixLit rest :=
          scanAssignAux_cons_not netflixLit c rest (Bool.eq_false_iff.mpr hnet)
        have eS : scanAssignAux secureLit (c :: rest) = scanAssignAux secureLit rest :=
          scanAssignAux_cons_not secureLit c rest (Bool.eq_false_iff.mpr hsec)
        rw [eN, eS]
        refine ih (hno_transfer c rest hno ?_)
        intro hocc htok16
        have h0 := (hno 6 hocc htok16).2
        rw [occursAt, List.drop_zero] at h0
        exact hsec h0

/-- Claim C10 (confirmed): the direct identifier scan matches `NetflixId=` as
a bare substring. For any text containing a `SecureNetflixId=v` assignment
but no standalone `NetflixId=` assignment, the `NetflixId=` regex of
src/bot7.py line 62 matches inside the `SecureNetflixId=` occurrence, so
strategy 1 fires and returns the two-entry map carrying the
`SecureNetflixId` value under both keys. -/
theorem C10_substring_match (content ftype : String) (v : List Char)
    (hsec : scanAssign secureLit content.data = some v)
    (hno : noStandaloneNetflixAssign content.data = true) :
    parse_cookies7 content ftype =
      [("NetflixId", String.mk v), ("SecureNetflixId", String.mk v)] := by
  have hnoP : ∀ i, occursAt netflixLit content.data i = true →
      tokAt content.data (i + 10) ≠ [] →
      6 ≤ i ∧ occursAt secureLit content.data (i - 6) = true := by
    intro i hocc htok
    by_cases hi : i < content.data.length
    · have hmem : i ∈ List.range content.data.length := List.mem_range.mpr hi
      have hf := List.all_eq_true.mp hno i hmem
      have hB : (tokAt content.data (i + 10)).isEmpty = false := by
        cases hE : (tokAt content.data (i + 10)).isEmpty
        · rfl
        · exact absurd (List.isEmpty_iff.mp hE) htok
      rw [show i + netflixLit.length = i + 10 from rfl] at hf
      simp only [hocc, hB, Bool.not_false, Bool.and_true, Bool.not_true, Bool.false_or] at hf
      rw [Bool.and_eq_true] at hf
      exact ⟨of_decide_eq_true hf.1, hf.2⟩
    · have hfalse : occursAt netflixLit content.data i = false := by
        rw [netflixLit_eq]
        exact occursAt_of_ge 'N' _ _ i (by omega)
      rw [hfalse] at hocc
      exact absurd hocc (by simp)
  have hnet : scanAssign netflixLit content.data = some v := by
    rw [scanAssign, scanAux_sec_net content.data hnoP]
    exact hsec
  refine parse_cookies7_ofE content ftype _ ?_
  unfold parse_cookies7E
  rw [hnet, hsec]

/-- Claim C10 witness: the statement evaluated at the concrete text
`SecureNetflixId=abc`, which has no standalone `NetflixId=` assignment yet
parses through strategy 1 to the two-entry map. -/
theorem C10_witness :
    scanAssign secureLit ("SecureNetflixId=abc").data = some ("abc").data ∧
    noStandaloneNetflixAssign ("SecureNetflixId=abc").data = true ∧
    parse_cookies7 "SecureNetflixId=abc" "txt" =
      [("NetflixId", "abc"), ("SecureNetflixId", "abc")] := by
  refine ⟨by decide, by decide, ?_⟩
  exact C10_substring_match "SecureNetflixId=abc" "txt" ("abc").data (by decide) (by decide)


/-- Auxiliary: the hexadecimal digit emitted for a value below 16 is a hex digit with that value. -/
theorem hexDigitC_spec : ∀ d, d < 16 → isHexC (hexDigitC d) = true ∧ hexVal (hexDigitC d) = d := by
  decide

/-- Auxiliary: the string-body reader steps over an ordinary character (not a quote, not a backslash, not a control character). -/
theorem parseJStrBody_plain (c : Char) (tail : List Char)
    (h1 : (c == '"') = false) (h2 : (c == '\\') = false) (h3 : ¬ c.toNat < 32) :
    parseJStrBody (c :: tail) = (parseJStrBody tail).map fun sr => (c :: sr.1, sr.2) := by
  rw [parseJStrBody.eq_def]
  split
  all_goals simp_all

/-- Auxiliary: reading back an escaped string body recovers exactly the original characters, leaving the input after the closing quote. -/
theorem parseJStrBody_escStr (l : List Char) (rest : List Char) :
    parseJStrBody ((l.map escC).flatten ++ '"' :: rest) = some (l, rest) := by
  induction l with
  | nil => rfl
  | cons c cl ih =>
    simp only [List.map_cons, List.flatten_cons, List.append_assoc]
    by_cases hq : (c == '"') = true
    · rw [show c = '"' from by simpa using hq]
      rw [show escC '"' ++ ((cl.map escC).flatten ++ '"' :: rest) =
            '\\' :: '"' :: ((cl.map escC).flatten ++ '"' :: rest) from rfl]
      rw [show ∀ Y, parseJStrBody ('\\' :: '"' :: Y) =
            (parseJStrBody Y).map (fun sr => ('"' :: sr.1, sr.2)) from fun Y => rfl]
      rw [ih]
      rfl
    · by_cases hb : (c == '\\') = true
      · rw [show c = '\\' from by simpa using hb]
        rw [show escC '\\' ++ ((cl.map escC).flatten ++ '"' :: rest) =
              '\\' :: '\\' :: ((cl.map escC).flatten ++ '"' :: rest) from rfl]
        rw [show ∀ Y, parseJStrBody ('\\' :: '\\' :: Y) =
              (parseJStrBody Y).map (fun sr => ('\\' :: sr.1, sr.2)) from fun Y => rfl]
        rw [ih]
        rfl
      · by_cases hn : (c == '\n') = true
        · rw [show c = '\n' from by simpa using hn]
          rw [show escC '\n' ++ ((cl.map escC).flatten ++ '"' :: rest) =
                '\\' :: 'n' :: ((cl.map escC).flatten ++ '"' :: rest) from rfl]
          rw [show ∀ Y, parseJStrBody ('\\' :: 'n' :: Y) =
                (parseJStrBody Y).map (fun sr => ('\n' :: sr.1, sr.2)) from fun Y => rfl]
          rw [ih]
          rfl
        · by_cases ht : (c == '\t') = true
          · rw [show c = '\t' from by simpa using ht]
            rw [show escC '\t' ++ ((cl.map escC).flatten ++ '"' :: rest) =
                  '\\' :: 't' :: ((cl.map escC).flatten ++ '"' :: rest) from rfl]
            rw [show ∀ Y, parseJStrBody ('\\' :: 't' :: Y) =
                  (parseJStrBody Y).map (fun sr => ('\t' :: sr.1, sr.2)) from fun Y => rfl]
            rw [ih]
            rfl
          · by_cases hr : (c == '\r') = true
            · rw [show c = '\r' from by simpa using hr]
              rw [show escC '\r' ++ ((cl.map escC).flatten ++ '"' :: rest) =
                    '\\' :: 'r' :: ((cl.map escC).flatten ++ '"' :: rest) from rfl]
              rw [show ∀ Y, parseJStrBody ('\\' :: 'r' :: Y) =
                    (parseJStrBody Y).map (fun sr => ('\r' :: sr.1, sr.2)) from fun Y => rfl]
              rw [ih]
              rfl
            · by_cases hb8 : (c == '\x08') = true
              · rw [show c = '\x08' from by simpa using hb8]
                rw [show escC '\x08' ++ ((cl.map escC).flatten ++ '"' :: rest) =
                      '\\' :: 'b' :: ((cl.map escC).flatten ++ '"' :: rest) from rfl]
                rw [show ∀ Y, parseJStrBody ('\\' :: 'b' :: Y) =
                      (parseJStrBody Y).map (fun sr => ('\x08' :: sr.1, sr.2)) from fun Y => rfl]
                rw [ih]
                rfl
              · by_cases hcf : (c == '\x0c') = true
                · rw [show c = '\x0c' from by simpa using hcf]
                  rw [show escC '\x0c' ++ ((cl.map escC).flatten ++ '"' :: rest) =
                        '\\' :: 'f' :: ((cl.map escC).flatten ++ '"' :: rest) from rfl]
                  rw [show ∀ Y, parseJStrBody ('\\' :: 'f' :: Y) =
                        (parseJStrBody Y).map (fun sr => ('\x0c' :: sr.1, sr.2)) from fun Y => rfl]
                  rw [ih]
                  rfl
                · by_cases hctl : c.toNat < 32
                  · have hesc : escC c =
                        ['\\', 'u', '0', '0', hexDigitC (c.toNat / 16), hexDigitC (c.toNat % 16)] := by
                      unfold escC
                      rw [if_neg (by simp_all), if_neg (by simp_all), if_neg (by simp_all),
                        if_neg (by simp_all), if_neg (by simp_all), if_neg (by simp_all),
                        if_neg (by simp_all), if_pos hctl]
                    rw [hesc]
                    simp only [List.cons_append, List.nil_append]
                    rw [show ∀ Y, parseJStrBody ('\\' :: 'u' :: '0' :: '0' ::
                          hexDigitC (c.toNat / 16) :: hexDigitC (c.toNat % 16) :: Y) =
                        (if (isHexC '0' && isHexC '0' && isHexC (hexDigitC (c.toNat / 16))
                            && isHexC (hexDigitC (c.toNat % 16))) = true then
                          (parseJStrBody Y).map fun sr =>
                            (Char.ofNat (((hexVal '0' * 16 + hexVal '0') * 16 +
                              hexVal (hexDigitC (c.toNat / 16))) * 16 +
                              hexVal (hexDigitC (c.toNat % 16))) :: sr.1, sr.2)
                        else none) from fun Y => rfl]
                    have hhi := hexDigitC_spec (c.toNat / 16) (by omega)
                    have hlo := hexDigitC_spec (c.toNat % 16) (by omega)
                    rw [if_pos (by rw [hhi.1, hlo.1]; rfl)]
                    rw [ih]
                    have hrec : (((hexVal '0' * 16 + hexVal '0') * 16 +
                        hexVal (hexDigitC (c.toNat / 16))) * 16 +
                        hexVal (hexDigitC (c.toNat % 16))) = c.toNat := by
                      rw [hhi.2, hlo.2]
                      have : hexVal '0' = 0 := rfl
                      rw [this]
                      omega
                    rw [hrec, Char.ofNat_toNat]
                    rfl
                  · rw [show escC c = [c] from by
                      unfold escC
                      rw [if_neg (by simp_all), if_neg (by simp_all), if_neg (by simp_all),
                        if_neg (by simp_all), if_neg (by simp_all), if_neg (by simp_all),
                        if_neg (by simp_all), if_neg hctl]]
                    rw [show ([c] : List Char) ++ ((cl.map escC).flatten ++ '"' :: rest) =
                          c :: ((cl.map escC).flatten ++ '"' :: rest) from rfl]
                    rw [parseJStrBody_plain c _ (by simp_all) (by simp_all) hctl, ih]
                    rfl

/-- Auxiliary: the value reader on a serialized string literal yields that string. -/
theorem parseJVal_strlit (g : Nat) (s : String) (X : List Char) :
    parseJVal (g + 1) ('"' :: ((s.data.map escC).flatten ++ ('"' :: X))) =
      some (.jstr s, X) := by
  have h1 : parseJVal (g + 1) ('"' :: ((s.data.map escC).flatten ++ ('"' :: X))) =
      (parseJStrBody ((s.data.map escC).flatten ++ ('"' :: X))).map
        (fun sr => (JVal.jstr (String.mk sr.1), sr.2)) := rfl
  rw [h1, parseJStrBody_escStr]
  rfl

/-- Auxiliary: the value reader on a serialized cookie object yields its two-member object, for every fuel margin. -/
theorem parseJVal_serObj (f : Nat) (k v : String) (rest : List Char) :
    parseJVal (f + 4) (serObj k v ++ rest) = some (objOf (k, v), rest) := by
  have hser : serObj k v ++ rest =
      '{' :: '"' :: 'n' :: 'a' :: 'm' :: 'e' :: '"' :: ':' :: '"' ::
        ((k.data.map escC).flatten ++ ('"' :: ',' :: '"' :: 'v' :: 'a' :: 'l' :: 'u' :: 'e' ::
          '"' :: ':' :: '"' :: ((v.data.map escC).flatten ++ ('"' :: '}' :: rest)))) := by
    simp [serObj, quoteStr, escStr]
  rw [hser]
  have e1 : ∀ (R : List Char), parseJVal (f + 4) ('{' :: '"' :: R) =
      (parseJMembers (f + 3) ('"' :: R)).map (fun p => (JVal.jobj p.1, p.2)) := fun R => rfl
  rw [e1]
  have e2 : ∀ (g : Nat) (B : List Char),
      parseJMembers (g + 1) ('"' :: 'n' :: 'a' :: 'm' :: 'e' :: '"' :: ':' :: '"' :: B) =
      (parseJVal g ('"' :: B)).bind (fun vr =>
        match dropJWs vr.2 with
        | ',' :: r4 => (parseJMembers g r4).bind
            (fun ms => some ((String.mk ['n', 'a', 'm', 'e'], vr.1) :: ms.1, ms.2))
        | '}' :: r4 => some ([(String.mk ['n', 'a', 'm', 'e'], vr.1)], r4)
        | _ => none) := fun g B => rfl
  rw [show f + 3 = (f + 2) + 1 from rfl, e2]
  rw [show f + 2 = (f + 1) + 1 from rfl, parseJVal_strlit]
  show (match dropJWs (',' :: '"' :: 'v' :: 'a' :: 'l' :: 'u' :: 'e' :: '"' :: ':' :: '"' ::
      ((v.data.map escC).flatten ++ ('"' :: '}' :: rest))) with
    | ',' :: r4 => (parseJMembers ((f + 1) + 1) r4).bind
        (fun ms => some ((String.mk ['n', 'a', 'm', 'e'], JVal.jstr k) :: ms.1, ms.2))
    | '}' :: r4 => some ([(String.mk ['n', 'a', 'm', 'e'], JVal.jstr k)], r4)
    | _ => none).map (fun (p : List (String × JVal) × List Char) => (JVal.jobj p.1, p.2)) =
      some (objOf (k, v), rest)
  have e3 : ∀ (g : Nat) (B : List Char),
      parseJMembers (g + 1) ('"' :: 'v' :: 'a' :: 'l' :: 'u' :: 'e' :: '"' :: ':' :: '"' :: B) =
      (parseJVal g ('"' :: B)).bind (fun vr =>
        match dropJWs vr.2 with
        | ',' :: r4 => (parseJMembers g r4).bind
            (fun ms => some ((String.mk ['v', 'a', 'l', 'u', 'e'], vr.1) :: ms.1, ms.2))
        | '}' :: r4 => some ([(String.mk ['v', 'a', 'l', 'u', 'e'], vr.1)], r4)
        | _ => none) := fun g B => rfl
  show ((parseJMembers ((f + 1) + 1) ('"' :: 'v' :: 'a' :: 'l' :: 'u' :: 'e' :: '"' :: ':' :: '"' ::
      ((v.data.map escC).flatten ++ ('"' :: '}' :: rest)))).bind
        (fun ms => some ((String.mk ['n', 'a', 'm', 'e'], JVal.jstr k) :: ms.1, ms.2))).map
      (fun (p : List (String × JVal) × List Char) => (JVal.jobj p.1, p.2)) =
      some (objOf (k, v), rest)
  rw [e3, parseJVal_strlit]
  rfl

/-- Auxiliary: the element reader on the serialized elements of a non-empty cookie map yields the corresponding objects, given fuel proportional to the number of elements. -/
theorem parseJElems_serElems : ∀ (l : CookieMap), l ≠ [] → ∀ (f : Nat) (rest : List Char),
    parseJElems (5 * l.length + f) (serElems l ++ ']' :: rest) =
      some (l.map objOf, rest) := by
  have eE : ∀ (g : Nat) (B : List Char), parseJElems (g + 1) B =
      (parseJVal g B).bind (fun vr =>
        match dropJWs vr.2 with
        | ',' :: r2 => (parseJElems g r2).bind (fun ms => some (vr.1 :: ms.1, ms.2))
        | ']' :: r2 => some ([vr.1], r2)
        | _ => none) := fun g B => rfl
  intro l
  induction l with
  | nil => intro h; exact absurd rfl h
  | cons kv tl ih =>
    intro _ f rest
    obtain ⟨k, v⟩ := kv
    cases tl with
    | nil =>
      show parseJElems (5 * 1 + f) (serObj k v ++ (']' :: rest)) = some ([objOf (k, v)], rest)
      rw [show 5 * 1 + f = (4 + f) + 1 from by omega, eE,
        show 4 + f = f + 4 from by omega, parseJVal_serObj]
      rfl
    | cons kv2 tl2 =>
      have hs : serElems ((k, v) :: kv2 :: tl2) ++ ']' :: rest =
          serObj k v ++ (',' :: (serElems (kv2 :: tl2) ++ ']' :: rest)) := by
        simp [serElems]
      rw [hs]
      rw [show 5 * ((k, v) :: kv2 :: tl2).length + f =
        ((5 * (kv2 :: tl2).length + f + 4) + 1) from by simp [List.length_cons]; omega]
      rw [eE]
      rw [show 5 * (kv2 :: tl2).length + f + 4 = (5 * (kv2 :: tl2).length + f) + 4 from rfl,
        parseJVal_serObj]
      show (parseJElems (5 * (kv2 :: tl2).length + f + 4)
          (serElems (kv2 :: tl2) ++ ']' :: rest)).bind
          (fun ms => some (objOf (k, v) :: ms.1, ms.2)) =
        some (((k, v) :: kv2 :: tl2).map objOf, rest)
      rw [show 5 * (kv2 :: tl2).length + f + 4 = 5 * (kv2 :: tl2).length + (f + 4) from by omega,
        ih (by simp) (f + 4) rest]
      rfl

/-- Auxiliary: a serialized cookie object has at least its fixed frame of 22 characters. -/
theorem serObj_length (k v : String) : 22 ≤ (serObj k v).length := by
  simp [serObj, quoteStr, List.length_append]
  omega

/-- Auxiliary: the fuel the serialized elements need is dominated by twice their length. -/
theorem serElems_length : ∀ (l : CookieMap), 5 * l.length ≤ 2 * (serElems l).length := by
  intro l
  induction l with
  | nil => simp [serElems]
  | cons kv tl ih =>
    obtain ⟨k, v⟩ := kv
    cases tl with
    | nil =>
      have := serObj_length k v
      simp only [serElems, List.length_cons, List.length_nil]
      omega
    | cons kv2 tl2 =>
      have h1 := serObj_length k v
      have h2 : serElems ((k, v) :: kv2 :: tl2) = serObj k v ++ ',' :: serElems (kv2 :: tl2) := rfl
      rw [h2]
      simp only [List.length_append, List.length_cons]
      simp only [List.length_cons] at ih ⊢
      omega

/-- Auxiliary: the embedded json.loads on a serialized cookie map yields exactly the array of its cookie objects. -/
theorem jsonLoads_serializeCookies (m : CookieMap) :
    jsonLoads (serializeCookies m) = some (.jarr (m.map objOf)) := by
  cases m with
  | nil => rfl
  | cons kv tl =>
    obtain ⟨k, v⟩ := kv
    obtain ⟨X, hX⟩ : ∃ X, serElems ((k, v) :: tl) = '{' :: X := by
      cases tl <;> exact ⟨_, rfl⟩
    have hlen : ∃ f, 2 * (serializeCookies ((k, v) :: tl)).data.length + 4 =
        (5 * ((k, v) :: tl).length + f) + 1 := by
      have hb := serElems_length ((k, v) :: tl)
      have hd : (serializeCookies ((k, v) :: tl)).data.length =
          (serElems ((k, v) :: tl)).length + 2 := by
        simp [serializeCookies, List.length_append]
      refine ⟨2 * (serializeCookies ((k, v) :: tl)).data.length + 3 -
        5 * ((k, v) :: tl).length, ?_⟩
      rw [hd]
      simp only [List.length_cons] at hb ⊢
      omega
    obtain ⟨f, hf⟩ := hlen
    have e0 : ∀ (g : Nat) (Z : List Char),
        parseJVal (g + 1) ('[' :: '{' :: Z) =
          (parseJElems g ('{' :: Z)).map (fun p => (JVal.jarr p.1, p.2)) := fun g Z => rfl
    have hdata : (serializeCookies ((k, v) :: tl)).data =
        '[' :: '{' :: (X ++ [']']) := by
      simp [serializeCookies, hX]
    unfold jsonLoads
    rw [hdata] at hf ⊢
    rw [hf, e0]
    rw [show ('{' :: (X ++ [']']) : List Char) = serElems ((k, v) :: tl) ++ ']' :: [] from by
      rw [hX]; simp]
    rw [parseJElems_serElems ((k, v) :: tl) (by simp) f []]
    rfl

/-- Auxiliary: lookup distributes over dict concatenation. -/
theorem dictLookup_append (key : String) (m1 m2 : CookieMap) :
    dictLookup key (m1 ++ m2) =
      match dictLookup key m1 with
      | some x => some x
      | none => dictLookup key m2 := by
  induction m1 with
  | nil => rfl
  | cons kv r ih =>
    obtain ⟨k', v'⟩ := kv
    by_cases hk : k' = key <;> simp [dictLookup, hk, ih]

/-- Auxiliary: inserting a fresh key appends the entry. -/
theorem dictInsert_append (m : CookieMap) (k v : String) (h : dictLookup k m = none) :
    dictInsert m k v = m ++ [(k, v)] := by
  induction m with
  | nil => rfl
  | cons kv r ih =>
    obtain ⟨k', v'⟩ := kv
    by_cases hk : k' = k
    · rw [dictLookup, if_pos hk] at h
      exact absurd h (by simp)
    · rw [dictLookup, if_neg hk] at h
      simp [dictInsert, hk, ih h]

/-- Auxiliary: the strategy-2 comprehension on the cookie objects of a duplicate-free map raises nothing and rebuilds exactly that map. -/
theorem buildJsonDict7_map_objOf (m : CookieMap) (hnd : (m.map Prod.fst).Nodup) :
    buildJsonDict7 (m.map objOf) = .ok m := by
  have gen : ∀ (mm : CookieMap), (mm.map Prod.fst).Nodup → ∀ acc : CookieMap,
      (∀ p ∈ mm, dictLookup p.1 acc = none) →
      (mm.map objOf).foldl jsonStep7 (.ok acc) = .ok (acc ++ mm) := by
    intro mm
    induction mm with
    | nil =>
      intro _ acc _
      simp
    | cons kv tl ih =>
      intro hnd2 acc hacc
      obtain ⟨k, v⟩ := kv
      simp only [List.map_cons, List.foldl_cons]
      have hstep : jsonStep7 (.ok acc) (objOf (k, v)) = .ok (acc ++ [(k, v)]) := by
        show Except.ok (dictInsert acc k v) = Except.ok (acc ++ [(k, v)])
        rw [dictInsert_append acc k v (hacc (k, v) (List.mem_cons_self _ _))]
      rw [hstep]
      have hnd3 : (tl.map Prod.fst).Nodup := by
        simp only [List.map_cons, List.nodup_cons] at hnd2
        exact hnd2.2
      have hknotin : k ∉ tl.map Prod.fst := by
        simp only [List.map_cons, List.nodup_cons] at hnd2
        exact hnd2.1
      have hacc2 : ∀ p ∈ tl, dictLookup p.1 (acc ++ [(k, v)]) = none := by
        intro p hp
        have hne : p.1 ≠ k := by
          intro he
          exact hknotin (he ▸ List.mem_map_of_mem Prod.fst hp)
        rw [dictLookup_append, hacc p (List.mem_cons_of_mem _ hp)]
        show dictLookup p.1 [(k, v)] = none
        rw [dictLookup, if_neg (fun he => hne he.symm)]
        rfl
      rw [ih hnd3 (acc ++ [(k, v)]) hacc2, List.append_assoc]
      rfl
  have h0 := gen m hnd [] (fun p _ => rfl)
  simpa [buildJsonDict7] using h0

/-- Claim C9 (counterexample): the round trip fails when a cookie value
embeds a SecureNetflixId= assignment. Serializing the map
a -> SecureNetflixId=x and re-parsing makes strategy 1 fire inside the
serialized value and return a different two-entry map. -/
theorem C9_counterexample :
    serializeCookies mapC9 = "[\x7b\"name\":\"a\",\"value\":\"SecureNetflixId=x\"\x7d]" ∧
    parse_cookies7 (serializeCookies mapC9) "json" =
      [("NetflixId", "x\"\x7d]"), ("SecureNetflixId", "x\"\x7d]")] ∧
    parse_cookies7 (serializeCookies mapC9) "json" ≠ mapC9 :=
  ⟨rfl, rfl, by decide⟩

/-- Claim C9 (amended): the JSON round trip holds for every parsed cookie map with duplicate-free keys whose serialization contains no SecureNetflixId= assignment - the one way strategy 1 can preempt the JSON strategy. Under that proviso, serializing to the JSON-array form and re-parsing through the full chain returns the identical map. -/
theorem C9_roundtrip_amended (m : CookieMap)
    (hnd : (m.map Prod.fst).Nodup)
    (hsec : scanAssign secureLit (serializeCookies m).data = none) :
    parse_cookies7 (serializeCookies m) "json" = m := by
  have hg : strat2gate (serializeCookies m) "json" = true := rfl
  refine parse_cookies7_ofE (serializeCookies m) "json" m ?_
  unfold parse_cookies7E
  rw [hsec]
  cases hnet : scanAssign netflixLit (serializeCookies m).data <;>
    simp only [hg, if_true, reduceIte, jsonLoadsE, jsonLoads_serializeCookies m,
      buildJsonDict7_map_objOf m hnd]


/-- Claim C9 witness: the amended round trip evaluated at a concrete benign
map carrying the two session identifiers. -/
theorem C9_witness :
    ((mapC9W.map Prod.fst).Nodup ∧
      scanAssign secureLit (serializeCookies mapC9W).data = none) ∧
    parse_cookies7 (serializeCookies mapC9W) "json" = mapC9W := by
  refine ⟨⟨by decide, by decide⟩, ?_⟩
  exact C9_roundtrip_amended mapC9W (by decide) (by decide)
